import Mathlib

/-!
# gwatch: a hardware-watchpoint tracer

Shallow embedding of `src/gwatch.cpp` (the controller) and of the write loop of
`src/sample_target.cpp` (the sample target).

The controller talks to the operating system through `ptrace`, `waitpid`,
`process_vm_readv`, `popen`, `fopen`/`fgets`, `readlink` and `fork`.  Every value the
operating system hands back is an input of the model (`Env`, `Iter`); every call the
controller makes and every line it prints is recorded, in program order, in the trace of
the run (`Run.trace`).  C strings are `String` where they are only compared or printed and
`List Char` where they are scanned; a `Char` stands for one byte.  Integers of the program
are `Nat` (unsigned, with `% 2^64` where the program adds) and `Int` (`long`, `pid_t`,
signal numbers).

The definitions follow the source function by function (`fatal_perror_and_exit`,
`must_ptrace`, `read_child_mem`, `resolveSymbolOffset`, `findModuleBase`, `main`); the
body of `main` is cut into its phases (`parseArgs`, `childBranch`, `loadBase`,
`armAndTrace`, `traceLoop`, `afterLoop`), each with the source lines it stands for.
`MapRecord`, `findLoadBaseSpec` and `loadBaseSpec` restate the Address-Space Mapper of the
specification and are compared with `findModuleBase` and `loadBase`.
-/

namespace Gwatch

/-! ## Observable behaviour -/

/-- The `enum __ptrace_request` values used by the controller. -/
inductive PtraceRequest where
  | TRACEME
  | PEEKDATA
  | POKEUSER
  | CONT
  | DETACH
  deriving DecidableEq, Repr

/-- The `addr` argument of a `ptrace` call: `nullptr`, the offset of `u_debugreg[i]` in
`struct user`, or an address in the child. -/
inductive PtraceAddr where
  | null
  | debugreg (i : Nat)
  | mem (a : Nat)
  deriving DecidableEq, Repr

/-- What a `ptrace` call leaves behind: its return value and `errno` (which the caller
has set to 0 just before the call). -/
structure PtraceRet where
  ret : Int
  errno : Nat
  deriving DecidableEq, Repr

/-- A line on standard output: `<var> write <old> -> <new>` or `<var> read <value>`. -/
inductive Event where
  | write (symbol : String) (old new : Int)
  | read (symbol : String) (value : Int)
  deriving DecidableEq, Repr

/-- The text of an event line, as built by the `std::cout <<` chains of the loop. -/
def Event.render : Event → String
  | .write symbol old new => symbol ++ " write " ++ toString old ++ " -> " ++ toString new ++ "\n"
  | .read symbol value => symbol ++ " read " ++ toString value ++ "\n"

/-- One externally visible step of the controller.  A `ptrace` step carries the result the
caller inspected (`none` when the return value is discarded). -/
inductive Action where
  | cout (e : Event)
  | cerr (s : String)
  | perror (msg : String)
  | popen (cmd : String)
  | fork
  | execv (path : String) (args : List String)
  | waitpid (pid : Int)
  | fopen (path : String)
  | readlink (path : String)
  | process_vm_readv (pid : Int) (addr : Nat) (size : Nat)
  | ptrace (req : PtraceRequest) (pid : Int) (addr : PtraceAddr) (data : Int)
      (res : Option PtraceRet)
  deriving DecidableEq, Repr

/-- How a run of the controller ends. -/
inductive Outcome where
  /-- Normal termination: `return n` from `main`, `exit(n)` or `_exit(n)`. -/
  | exit (code : Nat)
  /-- An exception left `main` (`std::terminate`). -/
  | aborted
  /-- The only suspension point, `waitpid`, never returns: the child neither stops nor exits. -/
  | blocked
  /-- In the forked child: `execv` replaced the process image. -/
  | execd
  deriving DecidableEq, Repr

/-- A run: the actions performed, in order, and how the run ended. -/
structure Run where
  trace : List Action
  outcome : Outcome
  deriving DecidableEq, Repr

/-- Actions performed before the rest of a run. -/
def Run.after (pre : List Action) (r : Run) : Run :=
  ⟨pre ++ r.trace, r.outcome⟩

/-- The events printed on standard output during a trace. -/
def events : List Action → List Event
  | [] => []
  | .cout e :: rest => e :: events rest
  | _ :: rest => events rest

/-- The write events among a list of events. -/
def writeEvents : List Event → List Event
  | [] => []
  | .write s o n :: rest => .write s o n :: writeEvents rest
  | .read _ _ :: rest => writeEvents rest

/-! ## Wait status -/

/-- The status word filled in by `waitpid`, by what the `W*` macros report about it. -/
inductive WaitStatus where
  | exited (code : Nat)
  | signaled (sig : Int)
  | stopped (sig : Int)
  deriving DecidableEq, Repr

def WIFEXITED : WaitStatus → Bool
  | .exited _ => true
  | _ => false

def WIFSTOPPED : WaitStatus → Bool
  | .stopped _ => true
  | _ => false

def WSTOPSIG : WaitStatus → Int
  | .stopped sig => sig
  | _ => 0

/-- The result of `waitpid(pid, &status, 0)`: `-1`, or the child's pid with a status. -/
inductive WaitRet where
  | error
  | status (s : WaitStatus)
  deriving DecidableEq, Repr

/-- Signal number of `SIGTRAP` (Linux). -/
def SIGTRAP : Int := 5

/-! ## Integer conversions -/

/-- Values of `uintptr_t` / `unsigned long long` are taken modulo `2^64`. -/
def U64 : Nat := 2 ^ 64

/-- The cast `(long)x` of a 64-bit unsigned value (two's complement). -/
def toLong (x : Nat) : Int :=
  if x % U64 < 2 ^ 63 then (x % U64 : Nat) else ((x % U64 : Nat) : Int) - (U64 : Nat)

/-! ## Fatal path -/

/-- Source function `fatal_perror_and_exit(msg, child)`: report, detach from the child when there is one,
`exit(2)`. -/
def fatal_perror_and_exit (msg : String) (child : Int) : Run :=
  ⟨[.perror msg] ++
      (if child > 0 then [.ptrace .DETACH child .null 0 none] else []),
    .exit 2⟩

/-- Source function `must_ptrace(request, pid, addr, data, what)`: the call, then either the fatal path
(the call returned -1 with `errno` set) or the rest of the program `k`, which receives the
return value. -/
def must_ptrace (request : PtraceRequest) (pid : Int) (addr : PtraceAddr) (data : Int)
    (what : String) (r : PtraceRet) (k : Int → Run) : Run :=
  Run.after [.ptrace request pid addr data (some r)] <|
    if r.ret = -1 ∧ r.errno ≠ 0 then
      Run.after [.cerr ("ptrace(" ++ what ++ ") failed: ")] (fatal_perror_and_exit what pid)
    else k r.ret

/-! ## Reading the watched word -/

/-- What `process_vm_readv` does for the single 8-byte request of `read_child_mem`: its
return value `n`, the number of bytes transferred or -1, and the 8 bytes at the remote
address, read as a `long`; the first `n` of them land in the local buffer. -/
structure VmRead where
  n : Int
  data : Int
  deriving DecidableEq, Repr

/-- The 64-bit pattern of a `long` (two's complement). -/
def toU64 (x : Int) : Nat :=
  (x % ((U64 : Nat) : Int)).toNat

/-- The local buffer after a transfer of the first `n` bytes of `data` (little-endian: the
low `n` bytes are replaced, the others keep what `buf` held). -/
def partialCopy (n : Nat) (data buf : Int) : Int :=
  toLong (toU64 buf / 2 ^ (8 * n) * 2 ^ (8 * n) + toU64 data % 2 ^ (8 * n))

/-- Source function `read_child_mem(pid, addr, buf, size)`: success flag (the transfer is
complete) and the buffer afterwards: the data after a complete transfer, the bytes that
arrived over the old content after a partial one, the old content after a failure. -/
def read_child_mem (r : VmRead) (size : Nat) (buf : Int) : Bool × Int :=
  if r.n = (size : Int) then (true, r.data)
  else if 0 < r.n ∧ r.n < (size : Int) then (false, partialCopy r.n.toNat r.data buf)
  else (false, buf)

/-! ## The trace event loop -/

/-- What the operating system answers during one iteration of the loop: the result of
`waitpid` and, for the calls the iteration goes on to make, the result of
`process_vm_readv`, of the fallback `PTRACE_PEEKDATA` and of `PTRACE_CONT`. -/
structure Iter where
  wait : WaitRet
  vm : VmRead
  peek : PtraceRet
  cont : PtraceRet
  deriving DecidableEq, Repr

/-- Lines 193-199 of `main`: `curVal` after the out-of-band read and, when that fails, the
in-band fallback; with the actions performed. -/
def fetchCurVal (pid : Int) (runtimeAddr : Nat) (it : Iter) : List Action × Int :=
  let curVal : Int := 0
  let rd := read_child_mem it.vm 8 curVal
  if !rd.1 then
    let v := it.peek.ret
    if v = -1 ∧ it.peek.errno ≠ 0 then
      ([.process_vm_readv pid runtimeAddr 8,
        .ptrace .PEEKDATA pid (.mem runtimeAddr) 0 (some it.peek),
        .perror "peekdata"], rd.2)
    else
      ([.process_vm_readv pid runtimeAddr 8,
        .ptrace .PEEKDATA pid (.mem runtimeAddr) 0 (some it.peek)], v)
  else ([.process_vm_readv pid runtimeAddr 8], rd.2)

/-- Lines 201-206 of `main`: the classification of a trap; the event printed and the new
`prevVal`. -/
def classify (varName : String) (prevVal curVal : Int) : Event × Int :=
  if curVal ≠ prevVal then (.write varName prevVal curVal, curVal)
  else (.read varName curVal, prevVal)

/-- Line 214 and 216 of `main`: clear DR7, `return 0`. -/
def afterLoop (pid : Int) (clear : PtraceRet) : Run :=
  must_ptrace .POKEUSER pid (.debugreg 7) 0 "clear DR7" clear fun _ => ⟨[], .exit 0⟩

/-- Lines 187-216 of `main`: the `while (true)` loop, one `Iter` per iteration, followed by
the code after the loop.  When the script of iterations is used up the controller sits in
`waitpid`. -/
def traceLoop (varName : String) (pid : Int) (runtimeAddr : Nat) (clear : PtraceRet) :
    Int → List Iter → Run
  | _, [] => ⟨[.waitpid pid], .blocked⟩
  | prevVal, it :: rest =>
    Run.after [.waitpid pid] <|
      match it.wait with
      | .error => Run.after [.perror "waitpid"] (afterLoop pid clear)
      | .status status =>
        if WIFEXITED status then afterLoop pid clear
        else if WIFSTOPPED status then
          let sig := WSTOPSIG status
          if sig = SIGTRAP then
            let rd := fetchCurVal pid runtimeAddr it
            let cl := classify varName prevVal rd.2
            Run.after (rd.1 ++ [.cout cl.1]) <|
              must_ptrace .CONT pid .null 0 "PTRACE_CONT after trap" it.cont fun _ =>
                traceLoop varName pid runtimeAddr clear cl.2 rest
          else
            must_ptrace .CONT pid .null sig "PTRACE_CONT forward signal" it.cont fun _ =>
              traceLoop varName pid runtimeAddr clear prevVal rest
        else traceLoop varName pid runtimeAddr clear prevVal rest

/-! ## Scanning text -/

/-- The predicate `isspace` in the "C" locale. -/
def isspace (c : Char) : Bool :=
  c = ' ' || c = '\t' || c = '\n' || c = '\x0b' || c = '\x0c' || c = '\r'

/-- Extraction `stream >> token` on a fresh string stream: skip white space, then take the characters
up to the next white space (the token is empty when there is none). -/
def firstToken (s : List Char) : List Char :=
  (s.dropWhile isspace).takeWhile fun c => !isspace c

/-- Value of a hexadecimal digit. -/
def hexDigit (c : Char) : Option Nat :=
  if '0' ≤ c ∧ c ≤ '9' then some (c.toNat - '0'.toNat)
  else if 'a' ≤ c ∧ c ≤ 'f' then some (c.toNat - 'a'.toNat + 10)
  else if 'A' ≤ c ∧ c ≤ 'F' then some (c.toNat - 'A'.toNat + 10)
  else none

/-- The values of the longest run of hexadecimal digits at the front of a string. -/
def scanHex : List Char → List Nat
  | [] => []
  | c :: s =>
    match hexDigit c with
    | some d => d :: scanHex s
    | none => []

/-- Value of a big-endian list of hexadecimal digits. -/
def hexValue (ds : List Nat) : Nat :=
  ds.foldl (fun a d => 16 * a + d) 0

/-- The two exceptions `std::stoull` throws. -/
inductive StoullError where
  | invalid_argument
  | out_of_range
  deriving DecidableEq, Repr

instance : DecidableEq (Except StoullError Nat) := fun a b =>
  match a, b with
  | .ok x, .ok y => if h : x = y then isTrue (by rw [h]) else isFalse (by intro e; cases e; exact h rfl)
  | .error x, .error y =>
    if h : x = y then isTrue (by rw [h]) else isFalse (by intro e; cases e; exact h rfl)
  | .ok _, .error _ => isFalse (by intro e; cases e)
  | .error _, .ok _ => isFalse (by intro e; cases e)

/-- Library function `std::stoull(str, nullptr, 16)`: white space, an optional sign, an optional `0x`, then
the longest run of hexadecimal digits; `invalid_argument` without a digit, `out_of_range`
above `ULLONG_MAX`; a minus sign negates modulo `2^64`. -/
def stoull16 (str : List Char) : Except StoullError Nat :=
  let s := str.dropWhile isspace
  let signed : Bool × List Char :=
    match s with
    | '-' :: t => (true, t)
    | '+' :: t => (false, t)
    | _ => (false, s)
  let body : List Char :=
    match signed.2 with
    | '0' :: x :: h :: t =>
      if (x = 'x' ∨ x = 'X') ∧ (hexDigit h).isSome then h :: t else signed.2
    | _ => signed.2
  let ds := scanHex body
  if ds = [] then .error .invalid_argument
  else if U64 ≤ hexValue ds then .error .out_of_range
  else .ok (if signed.1 then (U64 - hexValue ds) % U64 else hexValue ds)

/-- One `fgets` with room for `n` characters: the string read (through the first newline,
at most `n` characters) and the rest of the stream. -/
def fgetsLine : Nat → List Char → List Char × List Char
  | 0, s => ([], s)
  | _ + 1, [] => ([], [])
  | n + 1, c :: s =>
    if c = '\n' then ([c], s)
    else ((c :: (fgetsLine n s).1), (fgetsLine n s).2)

/-- Library function `fgets(buf, size, f)`: `none` for `NULL` (end of file), else the string now in `buf`
and the rest of the stream. -/
def fgets (size : Nat) (f : List Char) : Option (List Char × List Char) :=
  if f = [] then none else some (fgetsLine (size - 1) f)

/-- The strings returned by the first `fuel` calls `fgets(buf, size, f)` of a
`while (fgets(...))` loop. -/
def fgetsLoop (size : Nat) : Nat → List Char → List (List Char)
  | 0, _ => []
  | fuel + 1, f =>
    match fgets size f with
    | none => []
    | some (line, rest) => line :: fgetsLoop size fuel rest

/-- The strings a `while (fgets(buf, size, f))` loop sees, one per iteration, until end of
file; every call consumes a character, so `f.length` calls reach the end. -/
def fgetsAll (size : Nat) (f : List Char) : List (List Char) :=
  fgetsLoop size f.length f

/-- Library function `hay.find(needle)`: the first position at which `needle` occurs, `none` for `npos`. -/
def strFind : List Char → List Char → Option Nat
  | [], needle => if needle = [] then some 0 else none
  | c :: hay, needle =>
    if needle.isPrefixOf (c :: hay) then some 0
    else (strFind hay needle).map (· + 1)

/-- The `pop_back` loop of `findModuleBase`: drop every trailing `\n` and `\r`. -/
def stripEol (path : List Char) : List Char :=
  (path.reverse.dropWhile fun c => c = '\n' || c = '\r').reverse

/-! ## Symbol Resolver -/

/-- The shell pipeline run by `resolveSymbolOffset`. -/
def nmCommand (exePath symbol : String) : String :=
  "nm -C " ++ exePath ++ " | grep \x27 " ++ symbol ++ "$\x27 | head -n1"

/-- Source function `resolveSymbolOffset`: `pipe` is `none` when `popen` fails, else the output of the
pipeline. -/
def resolveSymbolOffset (pipe : Option (List Char)) : Nat :=
  match pipe with
  | none => 0
  | some out =>
    let line : List Char :=
      match fgets 512 out with
      | some (buf, _) => buf
      | none => []
    if line = [] then 0
    else
      let addrStr := firstToken line
      if addrStr = ['w'] ∨ addrStr = ['U'] ∨ addrStr = ['T'] then 0
      else
        match stoull16 addrStr with
        | .ok v => v
        | .error _ => 0

/-! ## Address-Space Mapper -/

/-- The `while (fgets(...))` loop of `findModuleBase` over the strings `fgets` returns. -/
def findModuleBaseLines (exePath : List Char) : List (List Char) → Except StoullError Nat
  | [] => .ok 0
  | s :: rest =>
    let tail := s.dropWhile fun c => c ≠ '/'
    if tail = [] then findModuleBaseLines exePath rest
    else
      let path := stripEol tail
      if exePath.length ≤ path.length ∧ (strFind path exePath).isSome then
        let addrRange := firstToken s
        if '-' ∈ addrRange then
          stoull16 (addrRange.takeWhile fun c => c ≠ '-')
        else findModuleBaseLines exePath rest
      else findModuleBaseLines exePath rest

/-- Source function `findModuleBase(pid, exePath)`: `maps` is `none` when `/proc/<pid>/maps` cannot be
opened, else the content of the file.  An error is the exception thrown by `std::stoull`,
which nothing in the function catches. -/
def findModuleBase (maps : Option (List Char)) (exePath : List Char) :
    Except StoullError Nat :=
  match maps with
  | none => .ok 0
  | some f => findModuleBaseLines exePath (fgetsAll 1024 f)

/-- The fallback of `main` (lines 171): base plus static offset in `uintptr_t` arithmetic,
the static offset alone when no base was found. -/
def runtimeAddress (base symOffset : Nat) : Nat :=
  if base = 0 then symOffset else (base + symOffset) % U64

/-! ## Watchpoint Programmer -/

/-- The control word built on lines 175-178 of `main`. -/
def dr7Arm : Nat :=
  ((0 ||| 1) ||| (3 <<< 16)) ||| (3 <<< 18)

/-! ## main -/

/-- The variables filled in by the argument loop of `main`. -/
structure Args where
  varName : String
  exePath : String
  childArgs : List String
  deriving DecidableEq, Repr

/-- The argument loop of `main` (lines 117-125) over `argv[i], argv[i+1], ...`. -/
def parseArgs : List String → Args → Args
  | [], acc => acc
  | [_], acc => acc
  | s :: a :: rest, acc =>
    if s = "--var" then parseArgs rest { acc with varName := a }
    else if s = "--exec" then parseArgs rest { acc with exePath := a }
    else if s = "--" then { acc with childArgs := acc.childArgs ++ a :: rest }
    else parseArgs (a :: rest) acc

/-- Everything the operating system answers during one run of `main`. -/
structure Env where
  /-- The command line, `argv[0]` included. -/
  argv : List String
  /-- The symbol-table query: `none` when `popen` fails, else the output of the pipeline. -/
  nmPipe : Option (List Char)
  /-- Return value of `fork`. -/
  forkRet : Int
  /-- In the child: result of `PTRACE_TRACEME`. -/
  traceme : PtraceRet
  /-- In the child: whether `execv` returns. -/
  execvFails : Bool
  /-- Result of the first `waitpid`. -/
  firstWait : WaitRet
  /-- The mapping records at the first `findModuleBase`: `none` when `fopen` fails. -/
  maps : Option (List Char)
  /-- Target of `/proc/<pid>/exe`: `none` when `readlink` returns no character. -/
  exeLink : Option String
  /-- The mapping records at the retry of `findModuleBase`. -/
  mapsRetry : Option (List Char)
  pokeDR0 : PtraceRet
  pokeDR7 : PtraceRet
  peekInit : PtraceRet
  contInit : PtraceRet
  /-- The iterations of the event loop. -/
  loop : List Iter
  /-- Result of the DR7 write after the loop. -/
  clear : PtraceRet
  deriving Repr

/-- The `std::hex` rendering of an address. -/
def hexString (n : Nat) : String :=
  String.mk (Nat.toDigits 16 n)

/-- Name of a file of the child under `/proc`. -/
def procPath (pid : Int) (file : String) : String :=
  "/proc/" ++ toString pid ++ "/" ++ file

/-- Lines 147-152 of `main`: the forked child. -/
def childBranch (args : Args) (env : Env) : Run :=
  Run.after
    ([.ptrace .TRACEME 0 .null 0 (some env.traceme)] ++
      (if env.traceme.ret = -1 then [.perror "ptrace TRACEME"] else []) ++
      [.execv args.exePath (args.exePath :: args.childArgs)]) <|
    if env.execvFails then ⟨[.perror "execv"], .exit 1⟩ else ⟨[], .execd⟩

/-- Lines 158-169 of `main`: the load base, by the given path and, when that finds
nothing, by the resolved executable path; with the actions performed. -/
def loadBase (pid : Int) (exePath : String) (env : Env) :
    List Action × Except StoullError Nat :=
  match findModuleBase env.maps exePath.toList with
  | .error e => ([.fopen (procPath pid "maps")], .error e)
  | .ok base =>
    if base = 0 then
      match env.exeLink with
      | some realExe =>
        ([.fopen (procPath pid "maps"), .readlink (procPath pid "exe"),
          .fopen (procPath pid "maps")],
          findModuleBase env.mapsRetry realExe.toList)
      | none => ([.fopen (procPath pid "maps"), .readlink (procPath pid "exe")], .ok base)
    else ([.fopen (procPath pid "maps")], .ok base)

/-- Lines 174-216 of `main`: arm the watchpoint, read the initial value, resume the child
and run the event loop. -/
def armAndTrace (varName : String) (pid : Int) (runtimeAddr : Nat) (env : Env) : Run :=
  must_ptrace .POKEUSER pid (.debugreg 0) (toLong runtimeAddr) "poke DR0" env.pokeDR0 fun _ =>
  must_ptrace .POKEUSER pid (.debugreg 7) (toLong dr7Arm) "poke DR7" env.pokeDR7 fun _ =>
  let prevVal := env.peekInit.ret
  Run.after
    ([.ptrace .PEEKDATA pid (.mem runtimeAddr) 0 (some env.peekInit)] ++
      (if prevVal = -1 ∧ env.peekInit.errno ≠ 0 then [.perror "ptrace peekdata initial"]
        else [])) <|
  must_ptrace .CONT pid .null 0 "PTRACE_CONT initial" env.contInit fun _ =>
  traceLoop varName pid runtimeAddr env.clear prevVal env.loop

/-- Lines 154-216 of `main`: the parent after a successful `fork`. -/
def parentBranch (args : Args) (symOffset : Nat) (pid : Int) (env : Env) : Run :=
  Run.after [.waitpid pid] <|
    match env.firstWait with
    | .error => ⟨[.perror "waitpid"], .exit 1⟩
    | .status status =>
      if WIFEXITED status then ⟨[.cerr "Child exited prematurely\n"], .exit 1⟩
      else
        Run.after (loadBase pid args.exePath env).1 <|
          match (loadBase pid args.exePath env).2 with
          | .error _ => ⟨[], .aborted⟩
          | .ok base =>
            Run.after
              [.cerr ("Resolved runtime address: 0x" ++
                hexString (runtimeAddress base symOffset) ++ "\n")] <|
              armAndTrace args.varName pid (runtimeAddress base symOffset) env

/-- The controller: `main(argc, argv)` of `gwatch.cpp`. -/
def main (env : Env) : Run :=
  if env.argv.length < 5 then
    ⟨[.cerr "Usage: gwatch --var <symbol> --exec <path> [-- arg1 ...]\n"], .exit 1⟩
  else
    let args := parseArgs env.argv.tail ⟨"", "", []⟩
    if args.varName = "" ∨ args.exePath = "" then
      ⟨[.cerr "Missing --var or --exec\n"], .exit 1⟩
    else
      Run.after [.popen (nmCommand args.exePath args.varName)] <|
        if resolveSymbolOffset env.nmPipe = 0 then
          ⟨[.cerr ("Symbol not found: " ++ args.varName ++ "\n")], .exit 1⟩
        else
          Run.after
            [.cerr ("Symbol offset: 0x" ++ hexString (resolveSymbolOffset env.nmPipe) ++ "\n"),
              .fork] <|
            if env.forkRet = -1 then ⟨[.perror "fork"], .exit 1⟩
            else if env.forkRet = 0 then childBranch args env
            else parentBranch args (resolveSymbolOffset env.nmPipe) env.forkRet env

/-! ## The sample target -/

/-- An access of the sample target to `watched`. -/
inductive Access where
  | store (v : Int)
  | load
  deriving DecidableEq, Repr

/-- The loop of `sample_target.cpp` (lines 12-19), `n` iterations from counter `i` on:
`watched = i; int r = watched;`. -/
def sampleLoop : Nat → Nat → List Access
  | 0, _ => []
  | n + 1, i => .store i :: .load :: sampleLoop n (i + 1)

/-- The accesses of the sample target with iteration count `ITER`: the loop, then the load
of `watched` for the final message (line 20). -/
def sampleTarget (ITER : Nat) : List Access :=
  sampleLoop ITER 0 ++ [.load]

/-- The iteration count in `sample_target.cpp`. -/
def ITER : Nat := 2000000

/-- The content of the watched word at the trap that follows each access (the watchpoint
is armed for loads and stores; a data watchpoint traps after the access), from content
`m`. -/
def trapValues : Int → List Access → List Int
  | _, [] => []
  | _, .store v :: rest => v :: trapValues v rest
  | m, .load :: rest => m :: trapValues m rest

/-- A watchpoint stop at which the out-of-band read delivers `v` and the child resumes. -/
def trapIter (v : Int) : Iter :=
  { wait := .status (.stopped SIGTRAP), vm := ⟨8, v⟩, peek := ⟨0, 0⟩, cont := ⟨0, 0⟩ }

/-- The iteration at which `waitpid` reports that the child has exited. -/
def exitIter (code : Nat) : Iter :=
  { wait := .status (.exited code), vm := ⟨0, 0⟩, peek := ⟨0, 0⟩, cont := ⟨0, 0⟩ }

/-! ## Observations on traces -/

/-- The forwarded signals of the `PTRACE_CONT` calls in a trace, in order. -/
def resumes : List Action → List Int
  | [] => []
  | .ptrace .CONT _ _ data _ :: rest => data :: resumes rest
  | _ :: rest => resumes rest

/-- Whether a `ptrace` call failed in the sense of lines 38, 183 and 197: it returned -1
and set `errno`. -/
def PtraceRet.failed (r : PtraceRet) : Prop :=
  r.ret = -1 ∧ r.errno ≠ 0

instance (r : PtraceRet) : Decidable r.failed :=
  inferInstanceAs (Decidable (r.ret = -1 ∧ r.errno ≠ 0))

/-- A stop for the timer signal `SIGALRM` (14) after which the child resumes. -/
def alarmIter : Iter :=
  { wait := .status (.stopped 14), vm := ⟨0, 0⟩, peek := ⟨0, 0⟩, cont := ⟨0, 0⟩ }

/-- A watchpoint stop at which both the out-of-band read and the fallback in-band read
fail (`process_vm_readv` returns -1 and transfers nothing, `PTRACE_PEEKDATA` returns -1
with `errno = EIO`), and the child resumes. -/
def unreadableTrapIter : Iter :=
  { wait := .status (.stopped SIGTRAP), vm := ⟨-1, 0⟩, peek := ⟨-1, 5⟩, cont := ⟨0, 0⟩ }

/-- The value a watchpoint stop delivers when a read succeeds: the out-of-band word when
that transfer is complete, else the in-band word when `PTRACE_PEEKDATA` did not fail;
`none` when both reads fail. -/
def Iter.valueRead (it : Iter) : Option Int :=
  if it.vm.n = 8 then some it.vm.data
  else if it.peek.failed then none
  else some it.peek.ret

/-- The values read at the watchpoint stops of a script, in order, when the script
consists of stops only (watchpoint stops with a successful read, stops for other signals
in between) and the child is resumed after each; `none` for any other script. -/
def stopValues : List Iter → Option (List Int)
  | [] => some []
  | it :: rest =>
    if it.cont.failed then none
    else
      match it.wait with
      | .status (.stopped sig) =>
        if sig = SIGTRAP then
          match it.valueRead, stopValues rest with
          | some v, some vs => some (v :: vs)
          | _, _ => none
        else stopValues rest
      | _ => none

/-- A session in which the child exits right after the initial resume and the DR7 write
after the loop fails with `ESRCH` (3), as it does for a child that `waitpid` has reaped. -/
def exitedChildEnv : Env :=
  { argv := ["gwatch", "--var", "watched", "--exec", "./sample_target"]
    nmPipe := some "0000000000004010 B watched\n".toList
    forkRet := 100
    traceme := ⟨0, 0⟩
    execvFails := false
    firstWait := .status (.stopped SIGTRAP)
    maps := some "55d0c0a00000-55d0c0a01000 r--p 00000000 08:01 1234   /home/u/sample_target\n".toList
    exeLink := some "/home/u/sample_target"
    mapsRetry := some "55d0c0a00000-55d0c0a01000 r--p 00000000 08:01 1234   /home/u/sample_target\n".toList
    pokeDR0 := ⟨0, 0⟩
    pokeDR7 := ⟨0, 0⟩
    peekInit := ⟨0, 0⟩
    contInit := ⟨0, 0⟩
    loop := [exitIter 0]
    clear := ⟨-1, 3⟩ }

/-- A `ptrace` call. -/
def Action.isPtrace : Action → Bool
  | .ptrace _ _ _ _ _ => true
  | _ => false

/-- The debug-register writes (`PTRACE_POKEUSER`) of a trace, in order: register and word
written. -/
def pokes : List Action → List (PtraceAddr × Int)
  | [] => []
  | .ptrace .POKEUSER _ addr data _ :: rest => (addr, data) :: pokes rest
  | _ :: rest => pokes rest

/-- The runtime address `main` resolves in a run (0 when the run does not get there). -/
def resolvedAddress (env : Env) : Nat :=
  match (loadBase env.forkRet (parseArgs env.argv.tail ⟨"", "", []⟩).exePath env).2 with
  | .ok base => runtimeAddress base (resolveSymbolOffset env.nmPipe)
  | .error _ => 0

/-- A run in which the child exits before its first stop (`execv` failed, `_exit(1)`). -/
def prematureExitEnv : Env :=
  { exitedChildEnv with firstWait := .status (.exited 1) }

/-- The actions of the fatal path after a failed call on `pid` reported as `what`: the
message of `must_ptrace`, `perror`, and the detach. -/
def fatalTail (what : String) (pid : Int) : List Action :=
  [.cerr ("ptrace(" ++ what ++ ") failed: "), .perror what, .ptrace .DETACH pid .null 0 none]

/-- Every failed `ptrace` call of a run whose request, address and data satisfy `checked`
is followed by the fatal path and nothing else, and the run exits with 2. -/
def EscalatesEvery (checked : PtraceRequest → PtraceAddr → Int → Prop) (r : Run) : Prop :=
  ∀ (pre : List Action) (req : PtraceRequest) (pid : Int) (addr : PtraceAddr) (data : Int)
    (res : PtraceRet) (post : List Action),
    r.trace = pre ++ .ptrace req pid addr data (some res) :: post →
    checked req addr data → res.failed →
    (∃ what, post = fatalTail what pid) ∧ r.outcome = .exit 2

/-- The calls that arm and run the watch: the write of DR0, the write of the control word
to DR7, and every continue. -/
def armsOrResumes (req : PtraceRequest) (addr : PtraceAddr) (data : Int) : Prop :=
  req = .CONT ∨ (req = .POKEUSER ∧ (addr = .debugreg 0 ∨ data = toLong dr7Arm))

/-- Every failed `PTRACE_PEEKDATA` of a run is followed by a `perror` and, later, by a
`PTRACE_CONT`: the failure is reported and the session goes on. -/
def ReportsPeekFailure (r : Run) : Prop :=
  ∀ (pre : List Action) (pid : Int) (addr : PtraceAddr) (data : Int)
    (res : PtraceRet) (post : List Action),
    r.trace = pre ++ .ptrace .PEEKDATA pid addr data (some res) :: post →
    res.failed →
    ∃ msg post', post = .perror msg :: post' ∧ resumes post' ≠ []

/-- Both properties, call by call along a trace that ends with outcome `o`. -/
def callsOK (o : Outcome) : List Action → Prop
  | [] => True
  | .ptrace req pid _ _ (some res) :: rest =>
    ((req = .POKEUSER ∨ req = .CONT) → res.failed →
        (∃ what, rest = fatalTail what pid) ∧ o = .exit 2)
      ∧ (req = .PEEKDATA → res.failed →
        ∃ msg post', rest = .perror msg :: post' ∧ resumes post' ≠ [])
      ∧ callsOK o rest
  | _ :: rest => callsOK o rest

/-- The property `callsOK` of a run. -/
def RunOK (r : Run) : Prop :=
  callsOK r.outcome r.trace

/-- A session in which the initial `PTRACE_PEEKDATA` fails with `EIO` (5), every other call
succeeds, and the child exits right after the initial resume. -/
def peekFailsEnv : Env :=
  { exitedChildEnv with peekInit := ⟨-1, 5⟩, clear := ⟨0, 0⟩ }

/-- A session in which the initial `PTRACE_CONT` fails with `ESRCH` (3). -/
def contFailsEnv : Env :=
  { exitedChildEnv with contInit := ⟨-1, 3⟩ }

/-! ## Mapping records, as the specification describes them -/

/-- A mapping record, one line of `/proc/<pid>/maps`: the two hexadecimal numbers of the
address range as printed, the text between the address range and the name (permissions,
offset, device, inode and padding, starting with the blank after the address range), and
the name of the region: the path of the backing file, or nothing or a bracketed
pseudo-name such as `[heap]` for a region without backing file. -/
structure MapRecord where
  startText : List Char
  stopText : List Char
  fields : List Char
  path : List Char
  deriving DecidableEq, Repr

/-- The line of a record in the mapping file. -/
def MapRecord.line (r : MapRecord) : List Char :=
  r.startText ++ '-' :: r.stopText ++ r.fields ++ r.path ++ ['\n']

/-- The start address of a record: the hexadecimal number before `-` in the address
range. -/
def MapRecord.start (r : MapRecord) : Nat :=
  hexValue (r.startText.filterMap hexDigit)

/-- A text that is a hexadecimal number: not empty, hexadecimal digits only. -/
def isHexText (t : List Char) : Bool :=
  !t.isEmpty && t.all fun c => (hexDigit c).isSome

/-- The shape of a mapping record: both ends of the address range are hexadecimal numbers,
the start fits 64 bits; the text after the address range starts with a blank and has
neither `/` nor a newline; a name that holds a `/` is a path and starts with `/`; the name
has no newline and does not end in a carriage return; and the line fits the 1024-byte
buffer of `findModuleBase`. -/
def MapRecord.WellFormed (r : MapRecord) : Bool :=
  isHexText r.startText && isHexText r.stopText && decide (r.start < U64)
    && r.fields.head? == some ' ' && !r.fields.contains '/' && !r.fields.contains '\n'
    && (!r.path.contains '/' || r.path.head? == some '/')
    && !r.path.contains '\n' && r.path.getLast? != some '\r'
    && decide (r.line.length ≤ 1023)

/-- The content of the mapping file for a list of records. -/
def mapsText (records : List MapRecord) : List Char :=
  (records.map MapRecord.line).flatten

/-- Whether the record has a backing path that contains `p` as a substring. -/
def MapRecord.backs (p : List Char) (r : MapRecord) : Bool :=
  r.path.head? == some '/' && decide (p <:+: r.path)

/-- The Address-Space Mapper of the specification: the start address of the first record
whose backing path contains `p` as a substring, 0 (`NotFound`) when there is none. -/
def findLoadBaseSpec (records : List MapRecord) (p : List Char) : Nat :=
  match records.find? (MapRecord.backs p) with
  | some r => r.start
  | none => 0

/-- The retry policy of the specification: the base found by the given path or, when that
is `NotFound`, the base found by the resolved executable path, if there is one. -/
def loadBaseSpec (records : List MapRecord) (exePath : List Char)
    (realExe : Option (List Char)) : Nat :=
  if findLoadBaseSpec records exePath ≠ 0 then findLoadBaseSpec records exePath
  else
    match realExe with
    | some real => findLoadBaseSpec records real
    | none => 0

/-- The mapping records of a position-independent sample target started as
`./sample_target`. -/
def sampleRecords : List MapRecord :=
  [ { startText := "55d0c0a00000".toList, stopText := "55d0c0a01000".toList,
      fields := " r--p 00000000 08:01 1234                       ".toList,
      path := "/home/u/sample_target".toList },
    { startText := "55d0c0a01000".toList, stopText := "55d0c0a02000".toList,
      fields := " r-xp 00001000 08:01 1234                       ".toList,
      path := "/home/u/sample_target".toList },
    { startText := "55d0c1b00000".toList, stopText := "55d0c1b21000".toList,
      fields := " rw-p 00000000 00:00 0                          ".toList,
      path := "[heap]".toList },
    { startText := "7f1c2a000000".toList, stopText := "7f1c2a028000".toList,
      fields := " r--p 00000000 08:01 5678                       ".toList,
      path := "/usr/lib/x86_64-linux-gnu/libc.so.6".toList },
    { startText := "7ffd3c5e0000".toList, stopText := "7ffd3c601000".toList,
      fields := " rw-p 00000000 00:00 0                          ".toList,
      path := "[stack]".toList } ]

/-- A line that `fgets` with a 1024-byte buffer reads whole. -/
def IsLine (l : List Char) : Prop :=
  ∃ body, l = body ++ ['\n'] ∧ '\n' ∉ body ∧ body.length < 1023

/-- A record of a binary in a deep directory: the path has 1109 characters, so the line
does not fit the 1024-byte buffer of `findModuleBase`. -/
def longRecord : MapRecord :=
  { startText := "00400000".toList, stopText := "00401000".toList,
    fields := " r-xp 00000000 08:01 1234                       ".toList,
    path := '/' :: List.replicate 1100 'u' ++ "/bin/foo".toList }

@[simp] theorem Run.after_trace (pre : List Action) (r : Run) :
    (Run.after pre r).trace = pre ++ r.trace := rfl

@[simp] theorem Run.after_outcome (pre : List Action) (r : Run) :
    (Run.after pre r).outcome = r.outcome := rfl

theorem Run.after_after (a b : List Action) (r : Run) :
    Run.after a (Run.after b r) = Run.after (a ++ b) r := by
  simp [Run.after]

theorem events_append (a b : List Action) : events (a ++ b) = events a ++ events b := by
  induction a with
  | nil => rfl
  | cons x a ih => cases x <;> simp [events, ih]

theorem must_ptrace_eq (request : PtraceRequest) (pid : Int) (addr : PtraceAddr) (data : Int)
    (what : String) (r : PtraceRet) (k : Int → Run) :
    must_ptrace request pid addr data what r k =
      Run.after [.ptrace request pid addr data (some r)]
        (if r.failed then
          Run.after [.cerr ("ptrace(" ++ what ++ ") failed: ")] (fatal_perror_and_exit what pid)
        else k r.ret) := rfl

theorem events_fatal (msg : String) (child : Int) :
    events (fatal_perror_and_exit msg child).trace = [] := by
  unfold fatal_perror_and_exit
  by_cases h : child > 0 <;> simp [h, events]

theorem events_must_ptrace (request : PtraceRequest) (pid : Int) (addr : PtraceAddr)
    (data : Int) (what : String) (r : PtraceRet) (k : Int → Run) :
    events (must_ptrace request pid addr data what r k).trace =
      if r.failed then [] else events (k r.ret).trace := by
  rw [must_ptrace_eq]
  by_cases h : r.failed
  · simp only [h, if_true, Run.after_trace, events_append, events_fatal]
    simp [events]
  · simp only [h, if_false, Run.after_trace, events_append]
    simp [events]

theorem events_afterLoop (pid : Int) (clear : PtraceRet) :
    events (afterLoop pid clear).trace = [] := by
  unfold afterLoop
  rw [events_must_ptrace]
  by_cases h : clear.failed <;> simp [h, events]

theorem events_fetchCurVal (pid : Int) (runtimeAddr : Nat) (it : Iter) :
    events (fetchCurVal pid runtimeAddr it).1 = [] := by
  unfold fetchCurVal
  simp only []
  split
  · split <;> simp [events]
  · simp [events]

theorem resumes_fetchCurVal (pid : Int) (runtimeAddr : Nat) (it : Iter) :
    resumes (fetchCurVal pid runtimeAddr it).1 = [] := by
  unfold fetchCurVal
  simp only []
  split
  · split <;> simp [resumes]
  · simp [resumes]

/-- The loop at a watchpoint stop: the read, the classification, the event, the resume
with signal 0, and the loop again with the new `prevVal`. -/
theorem traceLoop_trap (varName : String) (pid : Int) (runtimeAddr : Nat) (clear : PtraceRet)
    (prevVal : Int) (it : Iter) (rest : List Iter)
    (htrap : it.wait = .status (.stopped SIGTRAP)) :
    traceLoop varName pid runtimeAddr clear prevVal (it :: rest) =
      Run.after
        ([.waitpid pid] ++ (fetchCurVal pid runtimeAddr it).1 ++
          [.cout (classify varName prevVal (fetchCurVal pid runtimeAddr it).2).1,
            .ptrace .CONT pid .null 0 (some it.cont)])
        (if it.cont.failed then
          Run.after [.cerr "ptrace(PTRACE_CONT after trap) failed: "]
            (fatal_perror_and_exit "PTRACE_CONT after trap" pid)
        else
          traceLoop varName pid runtimeAddr clear
            (classify varName prevVal (fetchCurVal pid runtimeAddr it).2).2 rest) := by
  simp [traceLoop, htrap, WIFEXITED, WIFSTOPPED, WSTOPSIG, must_ptrace_eq, Run.after_after]

/-- The loop at a stop for another signal: the resume with that signal, and the loop again
with the same `prevVal`. -/
theorem traceLoop_other (varName : String) (pid : Int) (runtimeAddr : Nat) (clear : PtraceRet)
    (prevVal : Int) (it : Iter) (rest : List Iter) (sig : Int)
    (hstop : it.wait = .status (.stopped sig)) (hsig : sig ≠ SIGTRAP) :
    traceLoop varName pid runtimeAddr clear prevVal (it :: rest) =
      Run.after [.waitpid pid, .ptrace .CONT pid .null sig (some it.cont)]
        (if it.cont.failed then
          Run.after [.cerr "ptrace(PTRACE_CONT forward signal) failed: "]
            (fatal_perror_and_exit "PTRACE_CONT forward signal" pid)
        else traceLoop varName pid runtimeAddr clear prevVal rest) := by
  simp [traceLoop, hstop, WIFEXITED, WIFSTOPPED, WSTOPSIG, must_ptrace_eq, Run.after_after, hsig]

/-- The loop when `waitpid` reports the exit of the child: the code after the loop. -/
theorem traceLoop_exited (varName : String) (pid : Int) (runtimeAddr : Nat)
    (clear : PtraceRet) (prevVal : Int) (it : Iter) (rest : List Iter) (code : Nat)
    (hexit : it.wait = .status (.exited code)) :
    traceLoop varName pid runtimeAddr clear prevVal (it :: rest) =
      Run.after [.waitpid pid] (afterLoop pid clear) := by
  simp [traceLoop, hexit, WIFEXITED]

theorem events_traceLoop_trap (varName : String) (pid : Int) (runtimeAddr : Nat)
    (clear : PtraceRet) (prevVal : Int) (it : Iter) (rest : List Iter)
    (htrap : it.wait = .status (.stopped SIGTRAP)) :
    events (traceLoop varName pid runtimeAddr clear prevVal (it :: rest)).trace =
      (classify varName prevVal (fetchCurVal pid runtimeAddr it).2).1 ::
        (if it.cont.failed then []
        else
          events (traceLoop varName pid runtimeAddr clear
            (classify varName prevVal (fetchCurVal pid runtimeAddr it).2).2 rest).trace) := by
  rw [traceLoop_trap _ _ _ _ _ _ _ htrap]
  by_cases h : it.cont.failed
  · simp only [h, if_true, Run.after_trace, events_append, events_fetchCurVal, events_fatal]
    simp [events]
  · simp only [h, if_false, Run.after_trace, events_append, events_fetchCurVal]
    simp [events]

theorem events_traceLoop_other (varName : String) (pid : Int) (runtimeAddr : Nat)
    (clear : PtraceRet) (prevVal : Int) (it : Iter) (rest : List Iter) (sig : Int)
    (hstop : it.wait = .status (.stopped sig)) (hsig : sig ≠ SIGTRAP) :
    events (traceLoop varName pid runtimeAddr clear prevVal (it :: rest)).trace =
      if it.cont.failed then []
      else events (traceLoop varName pid runtimeAddr clear prevVal rest).trace := by
  rw [traceLoop_other _ _ _ _ _ _ _ _ hstop hsig]
  by_cases h : it.cont.failed
  · simp only [h, if_true, Run.after_trace, events_append, events_fatal]
    simp [events]
  · simp only [h, if_false, Run.after_trace, events_append]
    simp [events]

theorem events_traceLoop_exited (varName : String) (pid : Int) (runtimeAddr : Nat)
    (clear : PtraceRet) (prevVal : Int) (it : Iter) (rest : List Iter) (code : Nat)
    (hexit : it.wait = .status (.exited code)) :
    events (traceLoop varName pid runtimeAddr clear prevVal (it :: rest)).trace = [] := by
  rw [traceLoop_exited _ _ _ _ _ _ _ _ hexit]
  simp only [Run.after_trace, events_append, events_afterLoop]
  simp [events]

theorem events_traceLoop_nil (varName : String) (pid : Int) (runtimeAddr : Nat)
    (clear : PtraceRet) (prevVal : Int) :
    events (traceLoop varName pid runtimeAddr clear prevVal []).trace = [] := by
  simp [traceLoop, events]

/-- When a read succeeds, `curVal` is the value read. -/
theorem fetchCurVal_of_valueRead (pid : Int) (runtimeAddr : Nat) (it : Iter) (v : Int)
    (h : it.valueRead = some v) : (fetchCurVal pid runtimeAddr it).2 = v := by
  unfold Iter.valueRead at h
  unfold fetchCurVal read_child_mem
  by_cases h8 : it.vm.n = 8
  · simp [h8] at h ⊢
    exact h
  · by_cases hp : it.peek.failed
    · simp [h8, hp] at h
    · have hp2 : ¬ (it.peek.ret = -1 ∧ it.peek.errno ≠ 0) := hp
      simp [h8, hp] at h
      by_cases hpart : 0 < it.vm.n ∧ it.vm.n < 8
      · simp [h8, hp2, hpart]
        exact h
      · simp [h8, hp2, hpart]
        exact h

/-- The events of a script of stops with consecutive distinct readings, followed by any
further iterations: one write per reading, then the events of the rest from the last
reading. -/
theorem events_traceLoop_reads (varName : String) (pid : Int) (runtimeAddr : Nat)
    (clear : PtraceRet) :
    ∀ (script : List Iter) (vs : List Int) (v0 : Int) (tail : List Iter),
      stopValues script = some vs → List.Chain (fun a b => a ≠ b) v0 vs →
      events (traceLoop varName pid runtimeAddr clear v0 (script ++ tail)).trace =
        List.zipWith (Event.write varName) (v0 :: vs) vs ++
          events (traceLoop varName pid runtimeAddr clear (vs.getLastD v0) tail).trace := by
  intro script
  induction script with
  | nil =>
    intro vs v0 tail h _
    simp [stopValues] at h
    subst h
    simp
  | cons it rest ih =>
    intro vs v0 tail h hd
    unfold stopValues at h
    by_cases hc : it.cont.failed
    · simp [hc] at h
    · simp only [hc, if_false] at h
      cases hw : it.wait with
      | error => simp [hw] at h
      | status st =>
        cases st with
        | exited c => simp [hw] at h
        | signaled c => simp [hw] at h
        | stopped sig =>
          simp only [hw] at h
          by_cases hs : sig = SIGTRAP
          · subst hs
            simp only [if_true] at h
            cases hv : it.valueRead with
            | none => simp [hv] at h
            | some v =>
              cases hr : stopValues rest with
              | none => simp [hv, hr] at h
              | some ws =>
                simp [hv, hr] at h
                subst h
                have hne : v0 ≠ v := (List.chain_cons.mp hd).1
                have hd2 : List.Chain (fun a b => a ≠ b) v ws := (List.chain_cons.mp hd).2
                rw [List.cons_append, events_traceLoop_trap _ _ _ _ _ _ _ hw,
                  fetchCurVal_of_valueRead _ _ _ _ hv]
                have hcl : classify varName v0 v = (Event.write varName v0 v, v) := by
                  unfold classify
                  simp [Ne.symm hne]
                simp only [hc, if_false, hcl]
                rw [ih ws v tail hr hd2, List.getLastD_cons]
                simp
          · simp only [hs, if_false] at h
            rw [List.cons_append, events_traceLoop_other _ _ _ _ _ _ _ _ hw hs]
            simp only [hc, if_false]
            exact ih vs v0 tail h hd

theorem events_traceLoop_trapIter (varName : String) (pid : Int) (runtimeAddr : Nat)
    (clear : PtraceRet) (prevVal v : Int) (rest : List Iter) :
    events (traceLoop varName pid runtimeAddr clear prevVal (trapIter v :: rest)).trace =
      (classify varName prevVal v).1 ::
        events (traceLoop varName pid runtimeAddr clear (classify varName prevVal v).2 rest).trace := by
  have hv : (trapIter v).valueRead = some v := by simp [Iter.valueRead, trapIter]
  have hc : ¬ (trapIter v).cont.failed := by simp [PtraceRet.failed, trapIter]
  rw [events_traceLoop_trap _ _ _ _ _ _ _ rfl, fetchCurVal_of_valueRead _ _ _ _ hv]
  simp only [hc, if_false]

theorem writeEvents_append (a b : List Event) :
    writeEvents (a ++ b) = writeEvents a ++ writeEvents b := by
  induction a with
  | nil => rfl
  | cons x a ih => cases x <;> simp [writeEvents, ih]

/-- The write events of the sample loop from counter `i + 1` on, entered with `i` in
memory and in `prevVal`. -/
theorem writeEvents_sampleLoop (varName : String) (pid : Int) (runtimeAddr : Nat)
    (clear : PtraceRet) :
    ∀ (n i : Nat) (tail : List Iter),
      writeEvents (events (traceLoop varName pid runtimeAddr clear (i : Int)
        ((trapValues (i : Int) (sampleLoop n (i + 1))).map trapIter ++ tail)).trace) =
      (List.range n).map (fun j : Nat => Event.write varName ((i + j : Nat) : Int) ((i + j : Nat) + 1)) ++
        writeEvents (events (traceLoop varName pid runtimeAddr clear ((i + n : Nat) : Int)
          tail).trace) := by
  intro n
  induction n with
  | zero =>
    intro i tail
    simp [sampleLoop, trapValues]
  | succ n ih =>
    intro i tail
    have hne : ((i + 1 : Nat) : Int) ≠ (i : Int) := by omega
    have h1 : classify varName (i : Int) ((i + 1 : Nat) : Int) =
        (Event.write varName i ((i + 1 : Nat) : Int), ((i + 1 : Nat) : Int)) := by
      unfold classify
      simp only [ne_eq, hne, not_false_eq_true, if_true]
    have h2 : classify varName ((i + 1 : Nat) : Int) ((i + 1 : Nat) : Int) =
        (Event.read varName ((i + 1 : Nat) : Int), ((i + 1 : Nat) : Int)) := by
      unfold classify
      simp
    simp only [sampleLoop, trapValues, List.map_cons, List.cons_append]
    rw [events_traceLoop_trapIter, h1, events_traceLoop_trapIter, h2]
    simp only [writeEvents]
    rw [ih (i + 1) tail, List.range_succ_eq_map]
    have e1 : ∀ j : Nat, i + 1 + j = i + (j + 1) := by intro j; omega
    have e2 : ((i + 1 : Nat) : Int) = ((i : Nat) : Int) + 1 := by push_cast; rfl
    simp only [List.map_cons, List.map_map, List.cons_append, Nat.add_zero, e1]
    rw [e2]
    rfl

theorem resumes_append (a b : List Action) : resumes (a ++ b) = resumes a ++ resumes b := by
  induction a with
  | nil => rfl
  | cons x a ih =>
    cases x with
    | ptrace req pid addr data res => cases req <;> simp [resumes, ih]
    | _ => simp [resumes, ih]

/-- Stores of the value already in memory only produce read events. -/
theorem events_stale_stores (varName : String) (pid : Int) (runtimeAddr : Nat)
    (clear : PtraceRet) (m : Int) :
    ∀ (n : Nat) (tail : List Iter),
      events (traceLoop varName pid runtimeAddr clear m
        ((trapValues m (List.replicate n (Access.store m))).map trapIter ++ tail)).trace =
      List.replicate n (Event.read varName m) ++
        events (traceLoop varName pid runtimeAddr clear m tail).trace := by
  intro n
  induction n with
  | zero =>
    intro tail
    simp [trapValues]
  | succ n ih =>
    intro tail
    have h : classify varName m m = (Event.read varName m, m) := by
      unfold classify
      simp
    simp only [List.replicate_succ, trapValues, List.map_cons, List.cons_append]
    rw [events_traceLoop_trapIter, h, ih tail]

/-- The trap values of the sample loop followed by one more load. -/
theorem trapValues_sampleLoop_load : ∀ (n i : Nat),
    trapValues (i : Int) (sampleLoop n (i + 1) ++ [Access.load]) =
      trapValues (i : Int) (sampleLoop n (i + 1)) ++ [((i + n : Nat) : Int)] := by
  intro n
  induction n with
  | zero =>
    intro i
    simp [sampleLoop, trapValues]
  | succ n ih =>
    intro i
    have e : i + 1 + n = i + (n + 1) := by omega
    simp only [sampleLoop, List.cons_append]
    simp only [trapValues]
    rw [ih (i + 1), e]
    rfl

/-! ## The claims -/

/-- C1. Trace event loop: for every initial `prevVal` `v0` and every script of stops whose
watchpoint stops read the values `vs` (reads succeeding, the child resumed after every
stop, stops for other signals interleaved) with consecutive values distinct, the loop
prints exactly the write events `v0 -> v1`, `v1 -> v2`, ..., one per reading and in that
order, and no read event, also when the script ends with the exit of the child; and for
the sample target, which stores 0, 1, ..., N-1 and loads after each store, the write events
are exactly `0 -> 1`, ..., `N-2 -> N-1`. -/
theorem trace_loop_reports_each_write (varName : String) (pid : Int) (runtimeAddr : Nat)
    (clear : PtraceRet) (v0 : Int) (script : List Iter) (vs : List Int)
    (hreads : stopValues script = some vs)
    (hdistinct : List.Chain (fun a b => a ≠ b) v0 vs) :
    events (traceLoop varName pid runtimeAddr clear v0 script).trace =
        List.zipWith (Event.write varName) (v0 :: vs) vs
      ∧ (∀ (code : Nat) (rest : List Iter),
          events (traceLoop varName pid runtimeAddr clear v0
            (script ++ exitIter code :: rest)).trace =
          List.zipWith (Event.write varName) (v0 :: vs) vs)
      ∧ (List.zipWith (Event.write varName) (v0 :: vs) vs).length = vs.length
      ∧ (∀ old new : Int, (Event.write varName old new).render =
          varName ++ " write " ++ toString old ++ " -> " ++ toString new ++ "\n")
      ∧ (∀ (N code : Nat) (rest : List Iter),
          writeEvents (events (traceLoop varName pid runtimeAddr clear 0
            ((trapValues 0 (sampleTarget N)).map trapIter ++ exitIter code :: rest)).trace) =
          (List.range (N - 1)).map fun i : Nat => Event.write varName (i : Int) ((i : Int) + 1)) := by
  refine ⟨?_, ?_, ?_, fun _ _ => rfl, ?_⟩
  · have h := events_traceLoop_reads varName pid runtimeAddr clear script vs v0 [] hreads hdistinct
    rw [List.append_nil, events_traceLoop_nil, List.append_nil] at h
    exact h
  · intro code rest
    rw [events_traceLoop_reads varName pid runtimeAddr clear script vs v0 _ hreads hdistinct,
      events_traceLoop_exited _ _ _ _ _ _ _ code rfl, List.append_nil]
  · simp
  · intro N code rest
    have hread : ∀ m : Int, classify varName m m = (Event.read varName m, m) := by
      intro m
      unfold classify
      simp
    cases N with
    | zero =>
      simp only [sampleTarget, sampleLoop, trapValues, List.nil_append, List.map_cons,
        List.map_nil, List.cons_append]
      rw [events_traceLoop_trapIter, hread, events_traceLoop_exited _ _ _ _ _ _ _ code rfl]
      rfl
    | succ n =>
      have hl := writeEvents_sampleLoop varName pid runtimeAddr clear n 0
        (trapIter ((0 + n : Nat) : Int) :: exitIter code :: rest)
      have hv := trapValues_sampleLoop_load n 0
      simp only [Nat.cast_zero, Nat.zero_add] at hl hv
      simp only [sampleTarget, sampleLoop, List.cons_append, Nat.cast_zero, Nat.zero_add,
        Nat.add_sub_cancel]
      simp only [trapValues]
      rw [hv]
      simp only [List.map_cons, List.cons_append, List.map_append, List.map_nil,
        List.append_assoc, List.nil_append]
      rw [events_traceLoop_trapIter, hread, events_traceLoop_trapIter, hread]
      simp only [writeEvents]
      rw [hl, events_traceLoop_trapIter, hread,
        events_traceLoop_exited _ _ _ _ _ _ _ code rfl]
      simp [writeEvents]

/-- C1, at a concrete script: readings 1 and 2 with a timer stop in between, from 0. -/
theorem trace_loop_reports_each_write_witness :
    stopValues [trapIter 1, alarmIter, trapIter 2] = some [1, 2]
      ∧ List.Chain (fun a b : Int => a ≠ b) 0 [1, 2]
      ∧ events (traceLoop "watched" 100 4096 ⟨0, 0⟩ 0
          [trapIter 1, alarmIter, trapIter 2]).trace =
        [Event.write "watched" 0 1, Event.write "watched" 1 2] :=
  ⟨rfl, by simp,
    (trace_loop_reports_each_write "watched" 100 4096 ⟨0, 0⟩ 0
      [trapIter 1, alarmIter, trapIter 2] [1, 2] rfl (by simp)).1⟩

/-- C2. Trace event loop: at every watchpoint stop at which the value read equals
`prevVal`, the iteration prints exactly one event, `<symbol> read <value>`, no write event,
and the loop goes on with `prevVal` unchanged; so any number of stores of the value already
in memory produces read events only. -/
theorem unchanged_value_is_read (varName : String) (pid : Int) (runtimeAddr : Nat)
    (clear : PtraceRet) (prevVal : Int) (it : Iter) (rest : List Iter)
    (htrap : it.wait = .status (.stopped SIGTRAP))
    (hsame : it.valueRead = some prevVal) :
    traceLoop varName pid runtimeAddr clear prevVal (it :: rest) =
        Run.after
          ([.waitpid pid] ++ (fetchCurVal pid runtimeAddr it).1 ++
            [.cout (.read varName prevVal), .ptrace .CONT pid .null 0 (some it.cont)])
          (if it.cont.failed then
            Run.after [.cerr "ptrace(PTRACE_CONT after trap) failed: "]
              (fatal_perror_and_exit "PTRACE_CONT after trap" pid)
          else traceLoop varName pid runtimeAddr clear prevVal rest)
      ∧ events (fetchCurVal pid runtimeAddr it).1 = []
      ∧ events (traceLoop varName pid runtimeAddr clear prevVal (it :: rest)).trace =
          Event.read varName prevVal ::
            (if it.cont.failed then []
            else events (traceLoop varName pid runtimeAddr clear prevVal rest).trace)
      ∧ (Event.read varName prevVal).render = varName ++ " read " ++ toString prevVal ++ "\n"
      ∧ (∀ (m : Int) (n : Nat) (tail : List Iter),
          events (traceLoop varName pid runtimeAddr clear m
            ((trapValues m (List.replicate n (Access.store m))).map trapIter ++ tail)).trace =
          List.replicate n (Event.read varName m) ++
            events (traceLoop varName pid runtimeAddr clear m tail).trace) := by
  have hcur := fetchCurVal_of_valueRead pid runtimeAddr it prevVal hsame
  have hcl : classify varName prevVal prevVal = (Event.read varName prevVal, prevVal) := by
    unfold classify
    simp
  refine ⟨?_, events_fetchCurVal _ _ _, ?_, rfl, ?_⟩
  · rw [traceLoop_trap _ _ _ _ _ _ _ htrap, hcur, hcl]
  · rw [events_traceLoop_trap _ _ _ _ _ _ _ htrap, hcur, hcl]
  · intro m n tail
    exact events_stale_stores varName pid runtimeAddr clear m n tail

/-- C2, at a concrete stop: 7 is read while `prevVal` is 7. -/
theorem unchanged_value_is_read_witness :
    (trapIter 7).wait = .status (.stopped SIGTRAP)
      ∧ (trapIter 7).valueRead = some 7
      ∧ events (traceLoop "watched" 100 4096 ⟨0, 0⟩ 7 (trapIter 7 :: [exitIter 0])).trace =
          [Event.read "watched" 7] :=
  ⟨rfl, rfl,
    (unchanged_value_is_read "watched" 100 4096 ⟨0, 0⟩ 7 (trapIter 7) [exitIter 0]
      rfl rfl).2.2.1⟩

/-- C4. Trace event loop: at a stop for a signal other than `SIGTRAP` the iteration only
resumes the child, with exactly that signal, prints nothing, and the loop goes on with
`prevVal` unchanged; at a `SIGTRAP` stop the child is resumed with signal 0. -/
theorem stop_signal_is_forwarded (varName : String) (pid : Int) (runtimeAddr : Nat)
    (clear : PtraceRet) (prevVal : Int) (it : Iter) (rest : List Iter) (sig : Int)
    (hstop : it.wait = .status (.stopped sig)) :
    traceLoop varName pid runtimeAddr clear prevVal (it :: rest) =
        (if sig = SIGTRAP then
          Run.after
            ([.waitpid pid] ++ (fetchCurVal pid runtimeAddr it).1 ++
              [.cout (classify varName prevVal (fetchCurVal pid runtimeAddr it).2).1,
                .ptrace .CONT pid .null 0 (some it.cont)])
            (if it.cont.failed then
              Run.after [.cerr "ptrace(PTRACE_CONT after trap) failed: "]
                (fatal_perror_and_exit "PTRACE_CONT after trap" pid)
            else
              traceLoop varName pid runtimeAddr clear
                (classify varName prevVal (fetchCurVal pid runtimeAddr it).2).2 rest)
        else
          Run.after [.waitpid pid, .ptrace .CONT pid .null sig (some it.cont)]
            (if it.cont.failed then
              Run.after [.cerr "ptrace(PTRACE_CONT forward signal) failed: "]
                (fatal_perror_and_exit "PTRACE_CONT forward signal" pid)
            else traceLoop varName pid runtimeAddr clear prevVal rest))
      ∧ resumes (fetchCurVal pid runtimeAddr it).1 = []
      ∧ (resumes (traceLoop varName pid runtimeAddr clear prevVal (it :: rest)).trace).head? =
          some (if sig = SIGTRAP then 0 else sig) := by
  by_cases hs : sig = SIGTRAP
  · subst hs
    have h := traceLoop_trap varName pid runtimeAddr clear prevVal it rest hstop
    refine ⟨by simpa using h, resumes_fetchCurVal _ _ _, ?_⟩
    rw [h]
    simp [resumes_append, resumes_fetchCurVal, resumes]
  · have h := traceLoop_other varName pid runtimeAddr clear prevVal it rest sig hstop hs
    refine ⟨by simpa [hs] using h, resumes_fetchCurVal _ _ _, ?_⟩
    rw [h]
    simp [resumes, hs]

/-- C4, at a concrete stop: a `SIGALRM` stop is resumed with signal 14. -/
theorem stop_signal_is_forwarded_witness :
    alarmIter.wait = .status (.stopped 14)
      ∧ traceLoop "watched" 100 4096 ⟨0, 0⟩ 7 [alarmIter] =
          ⟨[.waitpid 100, .ptrace .CONT 100 .null 14 (some ⟨0, 0⟩), .waitpid 100], .blocked⟩ :=
  ⟨rfl, (stop_signal_is_forwarded "watched" 100 4096 ⟨0, 0⟩ 7 alarmIter [] 14 rfl).1⟩

/-- C8, the code at the failing input: at a watchpoint stop where both reads fail, with 5
in `prevVal`, the loop prints `watched write 5 -> 0` and sets `prevVal` to 0, so that the
next stop, which reads 5, is reported as `watched write 0 -> 5`. -/
theorem unreadable_trap_prints_event :
    traceLoop "watched" 100 4096 ⟨0, 0⟩ 5 [unreadableTrapIter, trapIter 5, exitIter 0] =
      ⟨[.waitpid 100,
        .process_vm_readv 100 4096 8,
        .ptrace .PEEKDATA 100 (.mem 4096) 0 (some ⟨-1, 5⟩),
        .perror "peekdata",
        .cout (.write "watched" 5 0),
        .ptrace .CONT 100 .null 0 (some ⟨0, 0⟩),
        .waitpid 100,
        .process_vm_readv 100 4096 8,
        .cout (.write "watched" 0 5),
        .ptrace .CONT 100 .null 0 (some ⟨0, 0⟩),
        .waitpid 100,
        .ptrace .POKEUSER 100 (.debugreg 7) 0 (some ⟨0, 0⟩)],
      .exit 0⟩ := by
  rfl

/-- C3, the code at the failing input: the child exits, the DR7 write after the loop fails
with `ESRCH`, and the controller reports the failure, tries to detach and exits with 2. -/
theorem disarm_failure_after_exit_is_fatal :
    main exitedChildEnv =
      ⟨[.popen "nm -C ./sample_target | grep \x27 watched$\x27 | head -n1",
        .cerr "Symbol offset: 0x4010\n",
        .fork,
        .waitpid 100,
        .fopen "/proc/100/maps",
        .readlink "/proc/100/exe",
        .fopen "/proc/100/maps",
        .cerr "Resolved runtime address: 0x55d0c0a04010\n",
        .ptrace .POKEUSER 100 (.debugreg 0) 0x55d0c0a04010 (some ⟨0, 0⟩),
        .ptrace .POKEUSER 100 (.debugreg 7) 0xF0001 (some ⟨0, 0⟩),
        .ptrace .PEEKDATA 100 (.mem 0x55d0c0a04010) 0 (some ⟨0, 0⟩),
        .ptrace .CONT 100 .null 0 (some ⟨0, 0⟩),
        .waitpid 100,
        .ptrace .POKEUSER 100 (.debugreg 7) 0 (some ⟨-1, 3⟩),
        .cerr "ptrace(clear DR7) failed: ",
        .perror "clear DR7",
        .ptrace .DETACH 100 .null 0 none],
      .exit 2⟩ := by
  decide

/-- C7. If the first `waitpid` on the launched child reports that the child has exited,
`main` prints `Child exited prematurely` and exits with 1; the parent has made no `ptrace`
call at all, so no debug register is written. -/
theorem premature_exit_aborts_without_ptrace (env : Env)
    (hargc : 5 ≤ env.argv.length)
    (hvar : (parseArgs env.argv.tail ⟨"", "", []⟩).varName ≠ "")
    (hexe : (parseArgs env.argv.tail ⟨"", "", []⟩).exePath ≠ "")
    (hsym : resolveSymbolOffset env.nmPipe ≠ 0)
    (hfork : env.forkRet ≠ -1) (hparent : env.forkRet ≠ 0)
    (code : Nat) (hexit : env.firstWait = .status (.exited code)) :
    main env =
        ⟨[.popen (nmCommand (parseArgs env.argv.tail ⟨"", "", []⟩).exePath
            (parseArgs env.argv.tail ⟨"", "", []⟩).varName),
          .cerr ("Symbol offset: 0x" ++ hexString (resolveSymbolOffset env.nmPipe) ++ "\n"),
          .fork,
          .waitpid env.forkRet,
          .cerr "Child exited prematurely\n"],
          .exit 1⟩
      ∧ (main env).outcome = .exit 1
      ∧ (∀ a ∈ (main env).trace, a.isPtrace = false)
      ∧ pokes (main env).trace = [] := by
  have hmain : main env =
      ⟨[.popen (nmCommand (parseArgs env.argv.tail ⟨"", "", []⟩).exePath
          (parseArgs env.argv.tail ⟨"", "", []⟩).varName),
        .cerr ("Symbol offset: 0x" ++ hexString (resolveSymbolOffset env.nmPipe) ++ "\n"),
        .fork,
        .waitpid env.forkRet,
        .cerr "Child exited prematurely\n"],
        .exit 1⟩ := by
    unfold main
    have h1 : ¬ env.argv.length < 5 := by omega
    simp only [h1, if_false, hvar, hexe, or_self, hsym, hfork, hparent]
    unfold parentBranch
    simp only [hexit, WIFEXITED, if_true]
    rfl
  refine ⟨hmain, ?_, ?_, ?_⟩
  · rw [hmain]
  · rw [hmain]
    intro a ha
    simp only [List.mem_cons, List.mem_singleton, List.not_mem_nil, or_false] at ha
    rcases ha with h | h | h | h | h <;> subst h <;> rfl
  · rw [hmain]
    rfl

/-- C7, at a concrete run: `execv` fails in the child, which exits with 1. -/
theorem premature_exit_aborts_without_ptrace_witness :
    5 ≤ prematureExitEnv.argv.length
      ∧ (parseArgs prematureExitEnv.argv.tail ⟨"", "", []⟩).varName ≠ ""
      ∧ (parseArgs prematureExitEnv.argv.tail ⟨"", "", []⟩).exePath ≠ ""
      ∧ resolveSymbolOffset prematureExitEnv.nmPipe ≠ 0
      ∧ prematureExitEnv.forkRet ≠ -1 ∧ prematureExitEnv.forkRet ≠ 0
      ∧ prematureExitEnv.firstWait = .status (.exited 1)
      ∧ (main prematureExitEnv).outcome = .exit 1 :=
  ⟨by decide, by decide, by decide, by decide, by decide, by decide, rfl,
    (premature_exit_aborts_without_ptrace prematureExitEnv (by decide) (by decide) (by decide)
      (by decide) (by decide) (by decide) 1 rfl).2.1⟩

theorem pokes_append (a b : List Action) : pokes (a ++ b) = pokes a ++ pokes b := by
  induction a with
  | nil => rfl
  | cons x a ih =>
    cases x with
    | ptrace req pid addr data res => cases req <;> simp [pokes, ih]
    | _ => simp [pokes, ih]

theorem pokes_fatal (msg : String) (child : Int) :
    pokes (fatal_perror_and_exit msg child).trace = [] := by
  unfold fatal_perror_and_exit
  by_cases h : child > 0 <;> simp [h, pokes]

theorem pokes_fetchCurVal (pid : Int) (runtimeAddr : Nat) (it : Iter) :
    pokes (fetchCurVal pid runtimeAddr it).1 = [] := by
  unfold fetchCurVal
  simp only []
  split
  · split <;> simp [pokes]
  · simp [pokes]

theorem afterLoop_eq (pid : Int) (clear : PtraceRet) :
    afterLoop pid clear =
      Run.after [.ptrace .POKEUSER pid (.debugreg 7) 0 (some clear)]
        (if clear.failed then
          Run.after [.cerr "ptrace(clear DR7) failed: "] (fatal_perror_and_exit "clear DR7" pid)
        else ⟨[], .exit 0⟩) := rfl

theorem pokes_afterLoop (pid : Int) (clear : PtraceRet) :
    pokes (afterLoop pid clear).trace = [(.debugreg 7, 0)] := by
  rw [afterLoop_eq]
  by_cases h : clear.failed
  · simp only [h, if_true, Run.after_trace, pokes_append, pokes_fatal]
    simp [pokes]
  · simp only [h, if_false, Run.after_trace, pokes_append]
    simp [pokes]

/-- The loop and the code after it write no debug register but DR7, with 0, at most once. -/
theorem pokes_traceLoop (varName : String) (pid : Int) (runtimeAddr : Nat)
    (clear : PtraceRet) :
    ∀ (script : List Iter) (prevVal : Int),
      pokes (traceLoop varName pid runtimeAddr clear prevVal script).trace = [] ∨
      pokes (traceLoop varName pid runtimeAddr clear prevVal script).trace =
        [(.debugreg 7, 0)] := by
  intro script
  induction script with
  | nil =>
    intro prevVal
    left
    simp [traceLoop, pokes]
  | cons it rest ih =>
    intro prevVal
    cases hw : it.wait with
    | error =>
      right
      simp only [traceLoop, hw, Run.after_trace, pokes_append, pokes_afterLoop]
      simp [pokes]
    | status st =>
      cases st with
      | exited c =>
        right
        rw [traceLoop_exited _ _ _ _ _ _ _ c hw]
        simp only [Run.after_trace, pokes_append, pokes_afterLoop]
        simp [pokes]
      | signaled c =>
        have h : traceLoop varName pid runtimeAddr clear prevVal (it :: rest) =
            Run.after [.waitpid pid] (traceLoop varName pid runtimeAddr clear prevVal rest) := by
          simp [traceLoop, hw, WIFEXITED, WIFSTOPPED]
        rw [h]
        simp only [Run.after_trace, pokes_append]
        simpa [pokes] using ih prevVal
      | stopped sig =>
        by_cases hs : sig = SIGTRAP
        · subst hs
          rw [traceLoop_trap _ _ _ _ _ _ _ hw]
          by_cases hc : it.cont.failed
          · left
            simp only [hc, if_true, Run.after_trace, pokes_append, pokes_fetchCurVal,
              pokes_fatal]
            simp [pokes]
          · simp only [hc, if_false, Run.after_trace, pokes_append, pokes_fetchCurVal]
            simpa [pokes] using ih _
        · rw [traceLoop_other _ _ _ _ _ _ _ _ hw hs]
          by_cases hc : it.cont.failed
          · left
            simp only [hc, if_true, Run.after_trace, pokes_append, pokes_fatal]
            simp [pokes]
          · simp only [hc, if_false, Run.after_trace, pokes_append]
            simpa [pokes] using ih _

theorem toLong_dr7Arm : toLong dr7Arm = 0xF0001 := by
  decide

theorem armAndTrace_eq (varName : String) (pid : Int) (runtimeAddr : Nat) (env : Env) :
    armAndTrace varName pid runtimeAddr env =
      Run.after [.ptrace .POKEUSER pid (.debugreg 0) (toLong runtimeAddr) (some env.pokeDR0)]
        (if env.pokeDR0.failed then
          Run.after [.cerr "ptrace(poke DR0) failed: "] (fatal_perror_and_exit "poke DR0" pid)
        else
          Run.after [.ptrace .POKEUSER pid (.debugreg 7) 0xF0001 (some env.pokeDR7)]
            (if env.pokeDR7.failed then
              Run.after [.cerr "ptrace(poke DR7) failed: "]
                (fatal_perror_and_exit "poke DR7" pid)
            else
              Run.after
                ([.ptrace .PEEKDATA pid (.mem runtimeAddr) 0 (some env.peekInit)] ++
                  (if env.peekInit.failed then [.perror "ptrace peekdata initial"] else []))
                (Run.after [.ptrace .CONT pid .null 0 (some env.contInit)]
                  (if env.contInit.failed then
                    Run.after [.cerr "ptrace(PTRACE_CONT initial) failed: "]
                      (fatal_perror_and_exit "PTRACE_CONT initial" pid)
                  else
                    traceLoop varName pid runtimeAddr env.clear env.peekInit.ret env.loop)))) := by
  unfold armAndTrace
  simp only [must_ptrace_eq, toLong_dr7Arm]
  rfl

theorem pokes_armAndTrace (varName : String) (pid : Int) (runtimeAddr : Nat) (env : Env) :
    ∃ n, pokes (armAndTrace varName pid runtimeAddr env).trace =
      List.take n [(.debugreg 0, toLong runtimeAddr), (.debugreg 7, 0xF0001), (.debugreg 7, 0)] := by
  rw [armAndTrace_eq]
  by_cases h0 : env.pokeDR0.failed
  · refine ⟨1, ?_⟩
    simp only [h0, if_true, Run.after_trace, pokes_append, pokes_fatal]
    simp [pokes]
  · by_cases h7 : env.pokeDR7.failed
    · refine ⟨2, ?_⟩
      simp only [h0, h7, if_true, if_false, Run.after_trace, pokes_append, pokes_fatal]
      simp [pokes]
    · have hpk : pokes
          (if env.peekInit.failed then [Action.perror "ptrace peekdata initial"] else []) = [] := by
        by_cases hp : env.peekInit.failed <;> simp [hp, pokes]
      by_cases hc : env.contInit.failed
      · refine ⟨2, ?_⟩
        simp only [h0, h7, hc, if_true, if_false, Run.after_trace, pokes_append, pokes_fatal]
        rw [hpk]
        simp [pokes]
      · rcases pokes_traceLoop varName pid runtimeAddr env.clear env.loop env.peekInit.ret
          with hl | hl
        · refine ⟨2, ?_⟩
          simp only [h0, h7, hc, if_false, Run.after_trace, pokes_append, hl]
          rw [hpk]
          simp [pokes]
        · refine ⟨3, ?_⟩
          simp only [h0, h7, hc, if_false, Run.after_trace, pokes_append, hl]
          rw [hpk]
          simp [pokes]

theorem pokes_loadBase (pid : Int) (exePath : String) (env : Env) :
    pokes (loadBase pid exePath env).1 = [] := by
  unfold loadBase
  split
  · rfl
  · split
    · split <;> rfl
    · rfl

theorem pokes_childBranch (args : Args) (env : Env) :
    pokes (childBranch args env).trace = [] := by
  unfold childBranch
  by_cases h1 : env.traceme.ret = -1 <;> by_cases h2 : env.execvFails = true <;>
    simp [h1, h2, pokes]

theorem pokes_parentBranch (args : Args) (symOffset : Nat) (pid : Int) (env : Env) :
    ∃ n, pokes (parentBranch args symOffset pid env).trace =
      List.take n
        [(.debugreg 0,
            toLong (match (loadBase pid args.exePath env).2 with
              | .ok base => runtimeAddress base symOffset
              | .error _ => 0)),
          (.debugreg 7, 0xF0001), (.debugreg 7, 0)] := by
  unfold parentBranch
  cases hw : env.firstWait with
  | error => exact ⟨0, rfl⟩
  | status st =>
    by_cases hx : WIFEXITED st = true
    · refine ⟨0, ?_⟩
      simp [hx, pokes]
    · cases hlb : (loadBase pid args.exePath env).2 with
      | error e =>
        refine ⟨0, ?_⟩
        simp [hx, pokes_append, pokes_loadBase, pokes]
      | ok base =>
        obtain ⟨n, hn⟩ := pokes_armAndTrace args.varName pid (runtimeAddress base symOffset) env
        refine ⟨n, ?_⟩
        simp only [hx, Bool.false_eq_true, if_false]
        rw [Run.after_trace, pokes_append, Run.after_trace, pokes_append, pokes_loadBase,
          Run.after_trace, pokes_append, hn]
        rfl

theorem pokes_main (env : Env) :
    ∃ n, pokes (main env).trace =
      List.take n
        [(.debugreg 0, toLong (resolvedAddress env)), (.debugreg 7, 0xF0001), (.debugreg 7, 0)] := by
  unfold main
  by_cases h1 : env.argv.length < 5
  · exact ⟨0, by simp [h1, pokes]⟩
  · by_cases h2 : (parseArgs env.argv.tail ⟨"", "", []⟩).varName = "" ∨
        (parseArgs env.argv.tail ⟨"", "", []⟩).exePath = ""
    · exact ⟨0, by simp [h1, h2, pokes]⟩
    · by_cases h3 : resolveSymbolOffset env.nmPipe = 0
      · exact ⟨0, by simp [h1, h2, h3, pokes]⟩
      · by_cases h4 : env.forkRet = -1
        · exact ⟨0, by simp [h1, h2, h3, h4, pokes]⟩
        · by_cases h5 : env.forkRet = 0
          · refine ⟨0, ?_⟩
            have h0 : ¬ ((0 : Int) = -1) := by decide
            simp only [h1, h2, h3, h5, h0, if_false, if_true]
            rw [Run.after_trace, pokes_append, Run.after_trace, pokes_append, pokes_childBranch]
            rfl
          · obtain ⟨n, hn⟩ := pokes_parentBranch (parseArgs env.argv.tail ⟨"", "", []⟩)
              (resolveSymbolOffset env.nmPipe) env.forkRet env
            refine ⟨n, ?_⟩
            simp only [h1, h2, h3, h4, h5, if_false]
            rw [Run.after_trace, pokes_append, Run.after_trace, pokes_append, hn]
            rfl

/-- C10. Arming in `main` writes the resolved runtime address (same 64-bit pattern) into
DR0 and then the word `0xF0001` into DR7: bit 0 set, bits 16-17 equal to 3, bits 18-19
equal to 3, every other bit clear.  After the loop the only debug-register write is 0 to
DR7 (enable bit clear); DR0 is not written again.  In every run of `main` the
debug-register writes are an initial part of: DR0 with the address, DR7 with `0xF0001`,
DR7 with 0. -/
theorem arm_and_disarm_words :
    dr7Arm = 0xF0001
      ∧ dr7Arm.testBit 0 = true
      ∧ (dr7Arm >>> 16) % 4 = 3
      ∧ (dr7Arm >>> 18) % 4 = 3
      ∧ (∀ i, dr7Arm.testBit i = true → i = 0 ∨ i = 16 ∨ i = 17 ∨ i = 18 ∨ i = 19)
      ∧ toLong dr7Arm = 0xF0001
      ∧ (∀ a : Nat, a < U64 → toLong a % ((U64 : Nat) : Int) = (a : Int))
      ∧ (∀ (varName : String) (pid : Int) (runtimeAddr : Nat) (env : Env),
          ∃ rest : Run,
            armAndTrace varName pid runtimeAddr env =
              Run.after
                [.ptrace .POKEUSER pid (.debugreg 0) (toLong runtimeAddr) (some env.pokeDR0)]
                (if env.pokeDR0.failed then
                  Run.after [.cerr "ptrace(poke DR0) failed: "]
                    (fatal_perror_and_exit "poke DR0" pid)
                else
                  Run.after
                    [.ptrace .POKEUSER pid (.debugreg 7) 0xF0001 (some env.pokeDR7)]
                    (if env.pokeDR7.failed then
                      Run.after [.cerr "ptrace(poke DR7) failed: "]
                        (fatal_perror_and_exit "poke DR7" pid)
                    else rest))
              ∧ (pokes rest.trace = [] ∨ pokes rest.trace = [(.debugreg 7, 0)]))
      ∧ (∀ (pid : Int) (clear : PtraceRet),
          afterLoop pid clear =
            Run.after [.ptrace .POKEUSER pid (.debugreg 7) 0 (some clear)]
              (if clear.failed then
                Run.after [.cerr "ptrace(clear DR7) failed: "]
                  (fatal_perror_and_exit "clear DR7" pid)
              else ⟨[], .exit 0⟩))
      ∧ (0 : Int).testBit 0 = false
      ∧ (∀ (varName : String) (pid : Int) (runtimeAddr : Nat) (clear : PtraceRet)
          (script : List Iter) (prevVal : Int),
          pokes (traceLoop varName pid runtimeAddr clear prevVal script).trace = [] ∨
          pokes (traceLoop varName pid runtimeAddr clear prevVal script).trace =
            [(.debugreg 7, 0)])
      ∧ (∀ env : Env, ∃ n,
          pokes (main env).trace =
            List.take n
              [(.debugreg 0, toLong (resolvedAddress env)), (.debugreg 7, 0xF0001),
                (.debugreg 7, 0)])
      ∧ pokes (main exitedChildEnv).trace =
          [(.debugreg 0, 0x55d0c0a04010), (.debugreg 7, 0xF0001), (.debugreg 7, 0)] := by
  refine ⟨by decide, by decide, by decide, by decide, ?_, toLong_dr7Arm, ?_, ?_,
    afterLoop_eq, by decide, ?_, pokes_main, by decide⟩
  · intro i hi
    have hlt : i < 20 := by
      by_contra hge
      have h20 : dr7Arm < 2 ^ i :=
        lt_of_lt_of_le (by decide : dr7Arm < 2 ^ 20) (Nat.pow_le_pow_right (by decide) (by omega))
      rw [Nat.testBit_eq_false_of_lt h20] at hi
      exact Bool.false_ne_true hi
    interval_cases i <;> first | omega | (exfalso; revert hi; decide)
  · intro a ha
    unfold toLong
    have hm : a % U64 = a := Nat.mod_eq_of_lt ha
    rw [hm]
    unfold U64 at ha ⊢
    by_cases hlt : a < 2 ^ 63
    · simp only [hlt, if_true]
      omega
    · simp only [hlt, if_false]
      omega
  · intro varName pid runtimeAddr env
    refine ⟨_, armAndTrace_eq varName pid runtimeAddr env, ?_⟩
    have hpk : pokes
        (if env.peekInit.failed then [Action.perror "ptrace peekdata initial"] else []) = [] := by
      by_cases hp : env.peekInit.failed <;> simp [hp, pokes]
    by_cases hc : env.contInit.failed
    · left
      simp only [hc, if_true, Run.after_trace, pokes_append, pokes_fatal, hpk]
      simp [pokes]
    · rcases pokes_traceLoop varName pid runtimeAddr env.clear env.loop env.peekInit.ret
        with hl | hl
      · left
        simp only [hc, if_false, Run.after_trace, pokes_append, hl, hpk]
        simp [pokes]
      · right
        simp only [hc, if_false, Run.after_trace, pokes_append, hl, hpk]
        simp [pokes]
  · intro varName pid runtimeAddr clear script prevVal
    exact pokes_traceLoop varName pid runtimeAddr clear script prevVal

theorem callsOK_spec (o : Outcome) :
    ∀ (pre tr : List Action) (req : PtraceRequest) (pid : Int) (addr : PtraceAddr)
      (data : Int) (res : PtraceRet) (post : List Action),
      callsOK o tr → tr = pre ++ .ptrace req pid addr data (some res) :: post →
      ((req = .POKEUSER ∨ req = .CONT) → res.failed →
          (∃ what, post = fatalTail what pid) ∧ o = .exit 2)
        ∧ (req = .PEEKDATA → res.failed →
          ∃ msg post', post = .perror msg :: post' ∧ resumes post' ≠ []) := by
  intro pre
  induction pre with
  | nil =>
    intro tr req pid addr data res post h htr
    subst htr
    simp only [List.nil_append, callsOK] at h
    exact ⟨h.1, h.2.1⟩
  | cons a pre ih =>
    intro tr req pid addr data res post h htr
    subst htr
    have h2 : callsOK o (pre ++ .ptrace req pid addr data (some res) :: post) := by
      cases a with
      | ptrace req2 pid2 addr2 data2 res2 =>
        cases res2 with
        | none => simpa [callsOK] using h
        | some r2 =>
          simp only [List.cons_append, callsOK] at h
          exact h.2.2
      | _ => simpa [callsOK] using h
    exact ih _ req pid addr data res post h2 rfl

theorem callsOK_fatalTail (o : Outcome) (what : String) (pid : Int) :
    callsOK o (fatalTail what pid) := by
  simp [fatalTail, callsOK]

theorem fatal_trace (what : String) (pid : Int) (hpid : 0 < pid) :
    (Run.after [.cerr ("ptrace(" ++ what ++ ") failed: ")]
      (fatal_perror_and_exit what pid)).trace = fatalTail what pid := by
  simp [fatal_perror_and_exit, fatalTail, hpid]

theorem callsOK_skip (o : Outcome) (a : Action) (rest : List Action)
    (h : a.isPtrace = false) : callsOK o (a :: rest) ↔ callsOK o rest := by
  cases a with
  | ptrace req pid addr data res => cases h
  | _ => exact Iff.rfl

theorem callsOK_skip_list (o : Outcome) (rest : List Action) :
    ∀ pre : List Action, (∀ a ∈ pre, a.isPtrace = false) →
      (callsOK o (pre ++ rest) ↔ callsOK o rest) := by
  intro pre
  induction pre with
  | nil => intro _; exact Iff.rfl
  | cons a pre ih =>
    intro h
    rw [List.cons_append, callsOK_skip o a _ (h a (List.mem_cons_self _ _))]
    exact ih fun b hb => h b (List.mem_cons_of_mem _ hb)

theorem RunOK_after (pre : List Action) (r : Run) (h : ∀ a ∈ pre, a.isPtrace = false) :
    RunOK (Run.after pre r) ↔ RunOK r :=
  callsOK_skip_list r.outcome r.trace pre h

/-- A call that did not fail. -/
theorem RunOK_call_ok (req : PtraceRequest) (pid : Int) (addr : PtraceAddr) (data : Int)
    (res : PtraceRet) (r : Run) (hres : ¬ res.failed) (hr : RunOK r) :
    RunOK (Run.after [.ptrace req pid addr data (some res)] r) :=
  ⟨fun _ h => absurd h hres, fun _ h => absurd h hres, hr⟩

/-- A failed `PTRACE_PEEKDATA` followed by `perror` and a run that resumes the child. -/
theorem RunOK_peek_failed (pid : Int) (addr : PtraceAddr) (data : Int) (res : PtraceRet)
    (msg : String) (r : Run) (hres : resumes r.trace ≠ []) (hr : RunOK r) :
    RunOK (Run.after [.ptrace .PEEKDATA pid addr data (some res), .perror msg] r) :=
  ⟨fun h => (by rcases h with h | h <;> cases h), fun _ _ => ⟨msg, r.trace, rfl, hres⟩, hr⟩

/-- The property `RunOK` across a `must_ptrace` call with request `POKEUSER` or `CONT`. -/
theorem RunOK_must_ptrace (request : PtraceRequest) (pid : Int) (addr : PtraceAddr)
    (data : Int) (what : String) (r : PtraceRet) (k : Int → Run) (hpid : 0 < pid)
    (hreq : request = .POKEUSER ∨ request = .CONT)
    (hk : ¬ r.failed → RunOK (k r.ret)) :
    RunOK (must_ptrace request pid addr data what r k) := by
  rw [must_ptrace_eq]
  by_cases hf : r.failed
  · rw [if_pos hf]
    have ht := fatal_trace what pid hpid
    have hfatal : callsOK (Outcome.exit 2)
        (Run.after [.cerr ("ptrace(" ++ what ++ ") failed: ")]
          (fatal_perror_and_exit what pid)).trace := by
      rw [ht]
      exact callsOK_fatalTail _ _ _
    refine ⟨fun _ _ => ⟨⟨what, ht⟩, rfl⟩, ?_, hfatal⟩
    intro hp
    rcases hreq with h | h <;> rw [h] at hp <;> cases hp
  · rw [if_neg hf]
    exact RunOK_call_ok _ _ _ _ _ _ hf (hk hf)

theorem RunOK_afterLoop (pid : Int) (clear : PtraceRet) (hpid : 0 < pid) :
    RunOK (afterLoop pid clear) := by
  unfold afterLoop
  apply RunOK_must_ptrace _ _ _ _ _ _ _ hpid (Or.inl rfl)
  intro _
  exact True.intro

/-- The three shapes of the read at a watchpoint stop. -/
theorem fetchCurVal_cases (pid : Int) (runtimeAddr : Nat) (it : Iter) :
    (fetchCurVal pid runtimeAddr it).1 = [.process_vm_readv pid runtimeAddr 8]
      ∨ ((fetchCurVal pid runtimeAddr it).1 =
            [.process_vm_readv pid runtimeAddr 8,
              .ptrace .PEEKDATA pid (.mem runtimeAddr) 0 (some it.peek)]
          ∧ ¬ it.peek.failed)
      ∨ ((fetchCurVal pid runtimeAddr it).1 =
            [.process_vm_readv pid runtimeAddr 8,
              .ptrace .PEEKDATA pid (.mem runtimeAddr) 0 (some it.peek),
              .perror "peekdata"]
          ∧ it.peek.failed) := by
  unfold fetchCurVal
  simp only []
  by_cases h8 : (read_child_mem it.vm 8 0).1 = true
  · left
    simp [h8]
  · by_cases hp : it.peek.failed
    · right; right
      have hp2 : it.peek.ret = -1 ∧ it.peek.errno ≠ 0 := hp
      simp [h8, hp2, hp]
    · right; left
      have hp2 : ¬ (it.peek.ret = -1 ∧ it.peek.errno ≠ 0) := hp
      simp only [h8, hp2, hp]
      simp

theorem RunOK_traceLoop (varName : String) (pid : Int) (runtimeAddr : Nat)
    (clear : PtraceRet) (hpid : 0 < pid) :
    ∀ (script : List Iter) (prevVal : Int),
      RunOK (traceLoop varName pid runtimeAddr clear prevVal script) := by
  intro script
  induction script with
  | nil =>
    intro prevVal
    exact True.intro
  | cons it rest ih =>
    intro prevVal
    cases hw : it.wait with
    | error =>
      have h : traceLoop varName pid runtimeAddr clear prevVal (it :: rest) =
          Run.after [.waitpid pid, .perror "waitpid"] (afterLoop pid clear) := by
        simp [traceLoop, hw, Run.after_after]
      rw [h, RunOK_after _ _ (by simp [Action.isPtrace])]
      exact RunOK_afterLoop pid clear hpid
    | status st =>
      cases st with
      | exited c =>
        rw [traceLoop_exited _ _ _ _ _ _ _ c hw, RunOK_after _ _ (by simp [Action.isPtrace])]
        exact RunOK_afterLoop pid clear hpid
      | signaled c =>
        have h : traceLoop varName pid runtimeAddr clear prevVal (it :: rest) =
            Run.after [.waitpid pid] (traceLoop varName pid runtimeAddr clear prevVal rest) := by
          simp [traceLoop, hw, WIFEXITED, WIFSTOPPED]
        rw [h, RunOK_after _ _ (by simp [Action.isPtrace])]
        exact ih prevVal
      | stopped sig =>
        by_cases hs : sig = SIGTRAP
        · subst hs
          have hcont : RunOK (Run.after [Action.ptrace .CONT pid .null 0 (some it.cont)]
              (if it.cont.failed then
                Run.after [Action.cerr "ptrace(PTRACE_CONT after trap) failed: "]
                  (fatal_perror_and_exit "PTRACE_CONT after trap" pid)
              else
                traceLoop varName pid runtimeAddr clear
                  (classify varName prevVal (fetchCurVal pid runtimeAddr it).2).2 rest)) := by
            have h := RunOK_must_ptrace .CONT pid .null 0 "PTRACE_CONT after trap" it.cont
              (fun _ => traceLoop varName pid runtimeAddr clear
                (classify varName prevVal (fetchCurVal pid runtimeAddr it).2).2 rest)
              hpid (Or.inr rfl) (fun _ => ih _)
            rw [must_ptrace_eq] at h
            exact h
          rw [traceLoop_trap _ _ _ _ _ _ _ hw]
          generalize (if it.cont.failed then
              Run.after [Action.cerr "ptrace(PTRACE_CONT after trap) failed: "]
                (fatal_perror_and_exit "PTRACE_CONT after trap" pid)
            else
              traceLoop varName pid runtimeAddr clear
                (classify varName prevVal (fetchCurVal pid runtimeAddr it).2).2 rest) = X
            at hcont ⊢
          have hres : resumes (Run.after
              [Action.cout (classify varName prevVal (fetchCurVal pid runtimeAddr it).2).1]
              (Run.after [Action.ptrace .CONT pid .null 0 (some it.cont)] X)).trace ≠ [] := by
            simp [resumes]
          rcases fetchCurVal_cases pid runtimeAddr it with hf | ⟨hf, hp⟩ | ⟨hf, hp⟩
          · rw [hf]
            exact (RunOK_after [.waitpid pid, .process_vm_readv pid runtimeAddr 8,
              .cout (classify varName prevVal (fetchCurVal pid runtimeAddr it).2).1]
              (Run.after [.ptrace .CONT pid .null 0 (some it.cont)] X) (by simp [Action.isPtrace])).mpr hcont
          · rw [hf]
            refine (RunOK_after [.waitpid pid, .process_vm_readv pid runtimeAddr 8]
              (Run.after [.ptrace .PEEKDATA pid (.mem runtimeAddr) 0 (some it.peek)]
                (Run.after [.cout (classify varName prevVal (fetchCurVal pid runtimeAddr it).2).1]
                  (Run.after [.ptrace .CONT pid .null 0 (some it.cont)] X))) (by simp [Action.isPtrace])).mpr ?_
            apply RunOK_call_ok _ _ _ _ _ _ hp
            exact (RunOK_after [_] _ (by simp [Action.isPtrace])).mpr hcont
          · rw [hf]
            refine (RunOK_after [.waitpid pid, .process_vm_readv pid runtimeAddr 8]
              (Run.after [.ptrace .PEEKDATA pid (.mem runtimeAddr) 0 (some it.peek),
                  .perror "peekdata"]
                (Run.after [.cout (classify varName prevVal (fetchCurVal pid runtimeAddr it).2).1]
                  (Run.after [.ptrace .CONT pid .null 0 (some it.cont)] X))) (by simp [Action.isPtrace])).mpr ?_
            apply RunOK_peek_failed _ _ _ _ _ _ hres
            exact (RunOK_after [_] _ (by simp [Action.isPtrace])).mpr hcont
        · rw [traceLoop_other _ _ _ _ _ _ _ _ hw hs]
          have hcont := RunOK_must_ptrace .CONT pid .null sig "PTRACE_CONT forward signal"
            it.cont (fun _ => traceLoop varName pid runtimeAddr clear prevVal rest)
            hpid (Or.inr rfl) (fun _ => ih _)
          rw [must_ptrace_eq] at hcont
          exact (RunOK_after [.waitpid pid] _ (by simp [Action.isPtrace])).mpr hcont

theorem must_ptrace_trace_ne_nil_resumes (pid : Int) (addr : PtraceAddr) (data : Int)
    (what : String) (r : PtraceRet) (k : Int → Run) :
    resumes (must_ptrace .CONT pid addr data what r k).trace ≠ [] := by
  rw [must_ptrace_eq, Run.after_trace, resumes_append]
  simp [resumes]

theorem RunOK_armAndTrace (varName : String) (pid : Int) (runtimeAddr : Nat) (env : Env)
    (hpid : 0 < pid) : RunOK (armAndTrace varName pid runtimeAddr env) := by
  unfold armAndTrace
  apply RunOK_must_ptrace _ _ _ _ _ _ _ hpid (Or.inl rfl)
  intro _
  apply RunOK_must_ptrace _ _ _ _ _ _ _ hpid (Or.inl rfl)
  intro _
  have hloop : RunOK (must_ptrace .CONT pid .null 0 "PTRACE_CONT initial" env.contInit fun _ =>
      traceLoop varName pid runtimeAddr env.clear env.peekInit.ret env.loop) :=
    RunOK_must_ptrace _ _ _ _ _ _ _ hpid (Or.inr rfl)
      (fun _ => RunOK_traceLoop varName pid runtimeAddr env.clear hpid _ _)
  show RunOK (Run.after
    ([Action.ptrace .PEEKDATA pid (.mem runtimeAddr) 0 (some env.peekInit)] ++
      (if env.peekInit.ret = -1 ∧ env.peekInit.errno ≠ 0 then
        [Action.perror "ptrace peekdata initial"] else []))
    (must_ptrace .CONT pid .null 0 "PTRACE_CONT initial" env.contInit fun _ =>
      traceLoop varName pid runtimeAddr env.clear env.peekInit.ret env.loop))
  by_cases hp : env.peekInit.failed
  · have hp2 : env.peekInit.ret = -1 ∧ env.peekInit.errno ≠ 0 := hp
    rw [if_pos hp2]
    exact RunOK_peek_failed _ _ _ _ _ _ (must_ptrace_trace_ne_nil_resumes _ _ _ _ _ _) hloop
  · have hp2 : ¬ (env.peekInit.ret = -1 ∧ env.peekInit.errno ≠ 0) := hp
    rw [if_neg hp2]
    exact RunOK_call_ok _ _ _ _ _ _ hp hloop

theorem loadBase_noPtrace (pid : Int) (exePath : String) (env : Env) :
    ∀ a ∈ (loadBase pid exePath env).1, a.isPtrace = false := by
  unfold loadBase
  split
  · simp [Action.isPtrace]
  · split
    · split <;> simp [Action.isPtrace]
    · simp [Action.isPtrace]

theorem RunOK_parentBranch (args : Args) (symOffset : Nat) (pid : Int) (env : Env)
    (hpid : 0 < pid) : RunOK (parentBranch args symOffset pid env) := by
  unfold parentBranch
  rw [RunOK_after _ _ (by simp [Action.isPtrace])]
  cases hw : env.firstWait with
  | error => exact True.intro
  | status st =>
    by_cases hx : WIFEXITED st = true
    · simp only [hx, if_true]
      exact True.intro
    · simp only [hx, Bool.false_eq_true, if_false]
      rw [RunOK_after _ _ (loadBase_noPtrace _ _ _)]
      cases hlb : (loadBase pid args.exePath env).2 with
      | error e => exact True.intro
      | ok base =>
        simp only []
        rw [RunOK_after _ _ (by simp [Action.isPtrace])]
        exact RunOK_armAndTrace _ _ _ _ hpid

theorem RunOK_childBranch (args : Args) (env : Env) : RunOK (childBranch args env) := by
  unfold childBranch
  by_cases h1 : env.traceme.ret = -1 <;> by_cases h2 : env.execvFails = true <;>
    simp [h1, h2, RunOK, callsOK, Run.after]

theorem RunOK_main (env : Env) (hfork : -1 ≤ env.forkRet) : RunOK (main env) := by
  unfold main
  by_cases h1 : env.argv.length < 5
  · simp only [h1, if_true]
    exact True.intro
  · by_cases h2 : (parseArgs env.argv.tail ⟨"", "", []⟩).varName = "" ∨
        (parseArgs env.argv.tail ⟨"", "", []⟩).exePath = ""
    · simp only [h1, h2, if_true, if_false]
      exact True.intro
    · simp only [h1, h2, if_false]
      rw [RunOK_after _ _ (by simp [Action.isPtrace])]
      by_cases h3 : resolveSymbolOffset env.nmPipe = 0
      · simp only [h3, if_true]
        exact True.intro
      · simp only [h3, if_false]
        rw [RunOK_after _ _ (by simp [Action.isPtrace])]
        by_cases h4 : env.forkRet = -1
        · simp only [h4, if_true]
          exact True.intro
        · by_cases h5 : env.forkRet = 0
          · simp only [h4, h5, if_true, if_false]
            exact RunOK_childBranch _ _
          · simp only [h4, h5, if_false]
            exact RunOK_parentBranch _ _ _ _ (by omega)

/-- C9, as stated, fails: when the initial in-band read fails, nothing is escalated; the
run goes on to resume the child and ends with exit code 0, without a detach. -/
theorem initial_peek_failure_not_escalated :
    ¬ EscalatesEvery (fun _ _ _ => True) (main peekFailsEnv) := by
  intro h
  have h2 := (h
    [.popen "nm -C ./sample_target | grep \x27 watched$\x27 | head -n1",
      .cerr "Symbol offset: 0x4010\n",
      .fork,
      .waitpid 100,
      .fopen "/proc/100/maps",
      .readlink "/proc/100/exe",
      .fopen "/proc/100/maps",
      .cerr "Resolved runtime address: 0x55d0c0a04010\n",
      .ptrace .POKEUSER 100 (.debugreg 0) 0x55d0c0a04010 (some ⟨0, 0⟩),
      .ptrace .POKEUSER 100 (.debugreg 7) 0xF0001 (some ⟨0, 0⟩)]
    .PEEKDATA 100 (.mem 0x55d0c0a04010) 0 ⟨-1, 5⟩
    [.perror "ptrace peekdata initial",
      .ptrace .CONT 100 .null 0 (some ⟨0, 0⟩),
      .waitpid 100,
      .ptrace .POKEUSER 100 (.debugreg 7) 0 (some ⟨0, 0⟩)]
    (by decide) True.intro (by decide)).2
  revert h2
  decide

/-- C9, amended. Every `ptrace` call with which the controller arms and runs the watch
through `must_ptrace` - the write of DR0, the write of the control word to DR7 and every
continue - is checked, and when one fails the controller prints the failure, attempts a
detach from the child (result ignored), does nothing else and exits with 2.  The in-band
reads of the watched word (the initial one and the fallback in the loop) are checked as
well, but a failure is only reported with `perror` and the session goes on to resume the
child. -/
theorem must_ptrace_failure_is_fatal (env : Env) (hfork : -1 ≤ env.forkRet) :
    EscalatesEvery armsOrResumes (main env) ∧ ReportsPeekFailure (main env) := by
  have h := RunOK_main env hfork
  constructor
  · intro pre req pid addr data res post htr hreq hres
    have hreq2 : req = .POKEUSER ∨ req = .CONT := by
      rcases hreq with h1 | ⟨h1, _⟩
      · exact Or.inr h1
      · exact Or.inl h1
    exact (callsOK_spec _ pre _ req pid addr data res post h htr).1 hreq2 hres
  · intro pre pid addr data res post htr hres
    exact (callsOK_spec _ pre _ .PEEKDATA pid addr data res post h htr).2 rfl hres

/-- C9 amended, at a concrete run: the initial continue fails with `ESRCH`. -/
theorem must_ptrace_failure_is_fatal_witness :
    -1 ≤ contFailsEnv.forkRet
      ∧ (main contFailsEnv).trace =
          [.popen "nm -C ./sample_target | grep \x27 watched$\x27 | head -n1",
            .cerr "Symbol offset: 0x4010\n",
            .fork,
            .waitpid 100,
            .fopen "/proc/100/maps",
            .readlink "/proc/100/exe",
            .fopen "/proc/100/maps",
            .cerr "Resolved runtime address: 0x55d0c0a04010\n",
            .ptrace .POKEUSER 100 (.debugreg 0) 0x55d0c0a04010 (some ⟨0, 0⟩),
            .ptrace .POKEUSER 100 (.debugreg 7) 0xF0001 (some ⟨0, 0⟩),
            .ptrace .PEEKDATA 100 (.mem 0x55d0c0a04010) 0 (some ⟨0, 0⟩)] ++
          .ptrace .CONT 100 .null 0 (some ⟨-1, 3⟩) ::
            [.cerr "ptrace(PTRACE_CONT initial) failed: ",
              .perror "PTRACE_CONT initial",
              .ptrace .DETACH 100 .null 0 none]
      ∧ ((∃ what,
            [Action.cerr "ptrace(PTRACE_CONT initial) failed: ",
              Action.perror "PTRACE_CONT initial",
              Action.ptrace .DETACH 100 .null 0 none] = fatalTail what 100)
          ∧ (main contFailsEnv).outcome = .exit 2) :=
  ⟨by decide, by decide,
    (must_ptrace_failure_is_fatal contFailsEnv (by decide)).1
      [.popen "nm -C ./sample_target | grep \x27 watched$\x27 | head -n1",
        .cerr "Symbol offset: 0x4010\n",
        .fork,
        .waitpid 100,
        .fopen "/proc/100/maps",
        .readlink "/proc/100/exe",
        .fopen "/proc/100/maps",
        .cerr "Resolved runtime address: 0x55d0c0a04010\n",
        .ptrace .POKEUSER 100 (.debugreg 0) 0x55d0c0a04010 (some ⟨0, 0⟩),
        .ptrace .POKEUSER 100 (.debugreg 7) 0xF0001 (some ⟨0, 0⟩),
        .ptrace .PEEKDATA 100 (.mem 0x55d0c0a04010) 0 (some ⟨0, 0⟩)]
      .CONT 100 .null 0 ⟨-1, 3⟩
      [.cerr "ptrace(PTRACE_CONT initial) failed: ",
        .perror "PTRACE_CONT initial",
        .ptrace .DETACH 100 .null 0 none]
      (by decide) (Or.inl rfl) (by decide)⟩

/-! ## Facts about scanning text -/

theorem hexDigit_isSome_ne (c : Char) (h : (hexDigit c).isSome = true) :
    c ≠ '/' ∧ c ≠ '-' ∧ c ≠ '+' ∧ c ≠ 'x' ∧ c ≠ 'X' ∧ c ≠ '\n' ∧ isspace c = false := by
  refine ⟨?_, ?_, ?_, ?_, ?_, ?_, ?_⟩
  · rintro rfl; revert h; decide
  · rintro rfl; revert h; decide
  · rintro rfl; revert h; decide
  · rintro rfl; revert h; decide
  · rintro rfl; revert h; decide
  · rintro rfl; revert h; decide
  · by_contra hs
    have hs2 : isspace c = true := by simpa using hs
    simp only [isspace, Bool.or_eq_true, decide_eq_true_eq] at hs2
    rcases hs2 with ((((rfl | rfl) | rfl) | rfl) | rfl) | rfl <;> revert h <;> decide

theorem isHexText_iff (t : List Char) :
    isHexText t = true ↔ t ≠ [] ∧ ∀ c ∈ t, (hexDigit c).isSome = true := by
  unfold isHexText
  cases t with
  | nil => simp
  | cons a t => simp

theorem scanHex_hexText : ∀ t : List Char, (∀ c ∈ t, (hexDigit c).isSome = true) →
    scanHex t = t.filterMap hexDigit := by
  intro t
  induction t with
  | nil => intro _; rfl
  | cons a t ih =>
    intro h
    have ha := h a (List.mem_cons_self _ _)
    obtain ⟨d, hd⟩ := Option.isSome_iff_exists.mp ha
    have ht := ih fun c hc => h c (List.mem_cons_of_mem _ hc)
    simp [scanHex, hd, ht, List.filterMap_cons]

/-- On a hexadecimal number that fits 64 bits, `std::stoull` returns its value. -/
theorem stoull16_hexText (t : List Char) (h : isHexText t = true)
    (hv : hexValue (t.filterMap hexDigit) < U64) :
    stoull16 t = .ok (hexValue (t.filterMap hexDigit)) := by
  obtain ⟨hne, hall⟩ := (isHexText_iff t).mp h
  cases t with
  | nil => exact absurd rfl hne
  | cons c tok =>
    have hc := hexDigit_isSome_ne c (hall c (List.mem_cons_self _ _))
    have hscan := scanHex_hexText (c :: tok) hall
    obtain ⟨d, hd⟩ := Option.isSome_iff_exists.mp (hall c (List.mem_cons_self _ _))
    have hnil : List.filterMap hexDigit (c :: tok) ≠ [] := by
      simp [List.filterMap_cons, hd]
    unfold stoull16
    have hdrop : List.dropWhile isspace (c :: tok) = c :: tok := by
      simp [List.dropWhile, hc.2.2.2.2.2.2]
    simp only [hdrop]
    have hs : (match c :: tok with
        | '-' :: t => (true, t)
        | '+' :: t => (false, t)
        | _ => (false, c :: tok)) = (false, c :: tok) := by
      split
      · rename_i heq
        simp at heq
        exact absurd heq.1 hc.2.1
      · rename_i heq
        simp at heq
        exact absurd heq.1 hc.2.2.1
      · rfl
    simp only [hs]
    have hbody : (match c :: tok with
        | '0' :: x :: h :: t =>
          if (x = 'x' ∨ x = 'X') ∧ (hexDigit h).isSome then h :: t else c :: tok
        | _ => c :: tok) = c :: tok := by
      split
      · rename_i x h2 t2 heq
        simp at heq
        have hx : x ∈ c :: tok := by rw [heq.2]; simp
        have hx2 := hexDigit_isSome_ne x (hall x hx)
        have : ¬ ((x = 'x' ∨ x = 'X') ∧ (hexDigit h2).isSome = true) := by
          rintro ⟨h3 | h3, _⟩
          · exact hx2.2.2.2.1 h3
          · exact hx2.2.2.2.2.1 h3
        simp only [this, if_false]
      · rfl
    simp only [hbody, hscan, hnil, if_false]
    have hnot : ¬ U64 ≤ hexValue (List.filterMap hexDigit (c :: tok)) := by omega
    simp only [hnot, if_false]
    rfl

theorem fgetsLine_line : ∀ (body rest : List Char) (n : Nat),
    '\n' ∉ body → body.length < n →
    fgetsLine n (body ++ '\n' :: rest) = (body ++ ['\n'], rest) := by
  intro body
  induction body with
  | nil =>
    intro rest n _ hn
    cases n with
    | zero => omega
    | succ n => simp [fgetsLine]
  | cons a body ih =>
    intro rest n hb hn
    cases n with
    | zero => omega
    | succ n =>
      have ha : a ≠ '\n' := fun h => hb (by simp [h])
      have hb2 : '\n' ∉ body := fun h => hb (List.mem_cons_of_mem _ h)
      have hn2 : body.length < n := by simp at hn; omega
      simp [fgetsLine, ha, ih rest n hb2 hn2]

theorem fgetsLine_append : ∀ (n : Nat) (f : List Char),
    (fgetsLine n f).1 ++ (fgetsLine n f).2 = f := by
  intro n
  induction n with
  | zero => intro f; rfl
  | succ n ih =>
    intro f
    cases f with
    | nil => rfl
    | cons c f =>
      by_cases hc : c = '\n'
      · simp [fgetsLine, hc]
      · simp [fgetsLine, hc, ih f]

theorem fgetsLine_rest_length (n : Nat) (c : Char) (f : List Char) :
    (fgetsLine (n + 1) (c :: f)).2.length ≤ f.length := by
  have h := congrArg List.length (fgetsLine_append n f)
  by_cases hc : c = '\n'
  · simp [fgetsLine, hc]
  · simp only [fgetsLine, hc, if_false]
    rw [List.length_append] at h
    omega

/-- The fuel of `fgetsAll` is enough: a loop over `fgets` with a buffer of two bytes or more
delivers every character of the file. -/
theorem fgetsLoop_flatten (size : Nat) (hsize : 2 ≤ size) :
    ∀ (fuel : Nat) (f : List Char), f.length ≤ fuel → (fgetsLoop size fuel f).flatten = f := by
  obtain ⟨n, rfl⟩ : ∃ n, size = n + 2 := ⟨size - 2, by omega⟩
  intro fuel
  induction fuel with
  | zero =>
    intro f hf
    have : f = [] := List.length_eq_zero.mp (by omega)
    subst this
    rfl
  | succ fuel ih =>
    intro f hf
    cases f with
    | nil => simp [fgetsLoop, fgets]
    | cons c f =>
      have hlen := fgetsLine_rest_length n c f
      have happ := fgetsLine_append (n + 1) (c :: f)
      simp only [List.length_cons] at hf
      simp only [fgetsLoop, fgets, List.cons_ne_nil, if_false, Nat.add_one_sub_one,
        List.flatten_cons]
      rw [ih _ (by omega)]
      exact happ

theorem fgetsLoop_lines : ∀ (lines : List (List Char)) (fuel : Nat),
    (∀ l ∈ lines, IsLine l) → lines.length ≤ fuel →
    fgetsLoop 1024 fuel lines.flatten = lines := by
  intro lines
  induction lines with
  | nil =>
    intro fuel _ _
    cases fuel with
    | zero => rfl
    | succ fuel => simp [fgetsLoop, fgets]
  | cons l lines ih =>
    intro fuel hl hf
    cases fuel with
    | zero => simp at hf
    | succ fuel =>
      obtain ⟨body, rfl, hb, hlen⟩ := hl l (List.mem_cons_self _ _)
      have hrest := ih fuel (fun x hx => hl x (List.mem_cons_of_mem _ hx)) (by simpa using hf)
      have hne : (body ++ ['\n'] ++ lines.flatten) ≠ [] := by simp
      have hline : fgetsLine 1023 (body ++ '\n' :: lines.flatten) =
          (body ++ ['\n'], lines.flatten) := fgetsLine_line body _ 1023 hb hlen
      simp only [List.flatten_cons, fgetsLoop, fgets, hne, if_false]
      simp only [List.append_assoc, List.singleton_append, Nat.add_one_sub_one, hline, hrest]

theorem fgetsAll_lines (lines : List (List Char)) (hl : ∀ l ∈ lines, IsLine l) :
    fgetsAll 1024 lines.flatten = lines := by
  unfold fgetsAll
  apply fgetsLoop_lines lines _ hl
  induction lines with
  | nil => simp
  | cons l lines ih =>
    obtain ⟨body, rfl, _, _⟩ := hl l (List.mem_cons_self _ _)
    have h := ih fun x hx => hl x (List.mem_cons_of_mem _ hx)
    simp only [List.flatten_cons, List.length_append, List.length_cons, List.length_nil]
    omega

theorem strFind_isSome_iff : ∀ (hay needle : List Char),
    (strFind hay needle).isSome = true ↔ needle <:+: hay := by
  intro hay
  induction hay with
  | nil =>
    intro needle
    by_cases h : needle = [] <;> simp [strFind, h]
  | cons c hay ih =>
    intro needle
    unfold strFind
    by_cases hp : needle.isPrefixOf (c :: hay) = true
    · simp only [hp, if_true, Option.isSome_some, true_iff]
      obtain ⟨t, ht⟩ := ( List.isPrefixOf_iff_prefix).mp hp
      exact ⟨[], t, by simpa using ht⟩
    · have hp2 : needle.isPrefixOf (c :: hay) = false := Bool.eq_false_iff.mpr hp
      simp only [hp2, Bool.false_eq_true, if_false]
      rw [Option.isSome_map', ih, List.infix_cons_iff]
      constructor
      · exact Or.inr
      · rintro (h | h)
        · exact absurd (( List.isPrefixOf_iff_prefix).mpr h) hp
        · exact h

theorem stripEol_line (path : List Char) (h : path.getLast? ≠ some '\r')
    (hn : '\n' ∉ path) : stripEol (path ++ ['\n']) = path := by
  unfold stripEol
  rw [List.reverse_append]
  have hstep : List.dropWhile (fun c => decide (c = '\n') || decide (c = '\r'))
      (['\n'].reverse ++ path.reverse) =
      List.dropWhile (fun c => decide (c = '\n') || decide (c = '\r')) path.reverse := by
    simp [List.dropWhile_cons]
  rw [hstep]
  have hrev : List.dropWhile (fun c => decide (c = '\n') || decide (c = '\r')) path.reverse =
      path.reverse := by
    cases hr : path.reverse with
    | nil => rfl
    | cons a t =>
      have hlast : path.getLast? = some a := by
        rw [List.getLast?_eq_head?_reverse, hr]
        rfl
      have ha1 : a ≠ '\r' := fun h2 => h (by rw [hlast, h2])
      have ha2 : a ≠ '\n' := by
        intro h2
        apply hn
        have : a ∈ path.reverse := by rw [hr]; exact List.mem_cons_self _ _
        rw [← h2]
        exact List.mem_reverse.mp this
      simp [List.dropWhile_cons, ha1, ha2]
  rw [hrev, List.reverse_reverse]

theorem MapRecord.wf_unpack (r : MapRecord) (h : r.WellFormed = true) :
    isHexText r.startText = true ∧ isHexText r.stopText = true ∧ r.start < U64
      ∧ (∃ f, r.fields = ' ' :: f) ∧ '/' ∉ r.fields ∧ '\n' ∉ r.fields
      ∧ ('/' ∈ r.path → ∃ t, r.path = '/' :: t) ∧ '\n' ∉ r.path
      ∧ r.path.getLast? ≠ some '\r' ∧ r.line.length ≤ 1023 := by
  unfold MapRecord.WellFormed at h
  simp only [Bool.and_eq_true, decide_eq_true_eq, Bool.not_eq_true', Bool.or_eq_true,
    beq_iff_eq, bne_iff_ne, ne_eq, List.contains_eq_any_beq, List.any_eq_false] at h
  obtain ⟨⟨⟨⟨⟨⟨⟨⟨⟨h1, h2⟩, h3⟩, h4⟩, h5⟩, h6⟩, h7⟩, h8⟩, h9⟩, h10⟩ := h
  refine ⟨h1, h2, h3, ?_, ?_, ?_, ?_, ?_, h9, h10⟩
  · cases hf : r.fields with
    | nil => rw [hf] at h4; simp at h4
    | cons a f =>
      rw [hf] at h4
      simp at h4
      exact ⟨f, by rw [h4]⟩
  · intro hm
    exact h5 _ hm (by simp)
  · intro hm
    exact h6 _ hm (by simp)
  · intro hm
    rcases h7 with h7 | h7
    · exact absurd (by simp) (h7 _ hm)
    · cases hp : r.path with
      | nil => rw [hp] at h7; simp at h7
      | cons a t =>
        rw [hp] at h7
        simp at h7
        exact ⟨t, by rw [h7]⟩
  · intro hm
    exact h8 _ hm (by simp)

/-- One iteration of the loop of `findModuleBase` on the line of a well-formed record. -/
theorem findModuleBaseLines_record (p : List Char) (r : MapRecord)
    (hwf : r.WellFormed = true) (rest : List (List Char)) :
    findModuleBaseLines p (r.line :: rest) =
      if r.backs p = true then .ok r.start else findModuleBaseLines p rest := by
  obtain ⟨h1, h2, h3, ⟨f, hf⟩, h5, h6, h7, h8, h9, h10⟩ := r.wf_unpack hwf
  obtain ⟨hne1, hall1⟩ := (isHexText_iff _).mp h1
  obtain ⟨hne2, hall2⟩ := (isHexText_iff _).mp h2
  have hline : r.line =
      (r.startText ++ '-' :: r.stopText) ++ (r.fields ++ (r.path ++ ['\n'])) := by
    simp [MapRecord.line]
  have hrange : ∀ c ∈ r.startText ++ '-' :: r.stopText, c ≠ '/' ∧ isspace c = false := by
    intro c hc
    rcases List.mem_append.mp hc with h | h
    · have := hexDigit_isSome_ne c (hall1 c h)
      exact ⟨this.1, this.2.2.2.2.2.2⟩
    · rcases List.mem_cons.mp h with h | h
      · subst h
        exact ⟨by decide, by decide⟩
      · have := hexDigit_isSome_ne c (hall2 c h)
        exact ⟨this.1, this.2.2.2.2.2.2⟩
  have htail : List.dropWhile (fun c => decide (c ≠ '/')) r.line =
      List.dropWhile (fun c => decide (c ≠ '/')) (r.path ++ ['\n']) := by
    rw [hline, List.dropWhile_append_of_pos, List.dropWhile_append_of_pos]
    · intro c hc
      have : c ≠ '/' := fun h => h5 (h ▸ hc)
      simpa using this
    · intro c hc
      simpa using (hrange c hc).1
  have htok : firstToken r.line = r.startText ++ '-' :: r.stopText := by
    unfold firstToken
    obtain ⟨c0, t0, hc0⟩ := List.exists_cons_of_ne_nil hne1
    have hsp0 : isspace c0 = false :=
      (hexDigit_isSome_ne c0 (hall1 c0 (by rw [hc0]; exact List.mem_cons_self _ _))).2.2.2.2.2.2
    have hdrop : List.dropWhile isspace r.line = r.line := by
      rw [hline, hc0]
      simp [List.dropWhile_cons, hsp0]
    rw [hdrop, hline, hf, List.takeWhile_append_of_pos]
    · simp [List.takeWhile_cons, isspace]
    · intro c hc
      simp [(hrange c hc).2]
  have hdash : '-' ∈ r.startText ++ '-' :: r.stopText := by simp
  have htake : List.takeWhile (fun c => decide (c ≠ '-')) (r.startText ++ '-' :: r.stopText) =
      r.startText := by
    rw [List.takeWhile_append_of_pos]
    · simp [List.takeWhile_cons]
    · intro c hc
      have := (hexDigit_isSome_ne c (hall1 c hc)).2.1
      simpa using this
  have hsto : stoull16 r.startText = .ok r.start := stoull16_hexText _ h1 h3
  have hcond : ∀ path : List Char,
      (p.length ≤ path.length ∧ (strFind path p).isSome = true) ↔ p <:+: path := fun path =>
    ⟨fun h => (strFind_isSome_iff _ _).mp h.2,
      fun h => ⟨h.length_le, (strFind_isSome_iff _ _).mpr h⟩⟩
  rw [findModuleBaseLines]
  simp only [htail]
  by_cases hs : '/' ∈ r.path
  · obtain ⟨t, ht⟩ := h7 hs
    have hd : List.dropWhile (fun c => decide (c ≠ '/')) (r.path ++ ['\n']) =
        r.path ++ ['\n'] := by
      rw [ht]
      simp [List.dropWhile_cons]
    have hne : r.path ++ ['\n'] ≠ [] := by simp
    have hb : r.backs p = decide (p <:+: r.path) := by
      simp [MapRecord.backs, ht]
    simp only [hd, hne, if_false, stripEol_line r.path h9 h8, htok, hdash, if_true, htake,
      hsto, hb, decide_eq_true_eq]
    by_cases hi : p <:+: r.path
    · simp only [(hcond r.path).mpr hi, and_self, if_true, hi]
    · have hn : ¬ (p.length ≤ r.path.length ∧ (strFind r.path p).isSome = true) :=
        fun h => hi ((hcond r.path).mp h)
      simp only [hn, if_false, hi]
  · have hd : List.dropWhile (fun c => decide (c ≠ '/')) (r.path ++ ['\n']) = [] := by
      rw [List.dropWhile_append_of_pos]
      · simp [List.dropWhile_cons]
      · intro c hc
        have : c ≠ '/' := fun h => hs (h ▸ hc)
        simpa using this
    have hb : r.backs p = false := by
      unfold MapRecord.backs
      cases hp : r.path with
      | nil => simp
      | cons a t =>
        have : a ≠ '/' := fun h => hs (by rw [hp, h]; exact List.mem_cons_self _ _)
        simp [this]
    simp only [hd, if_true, hb, Bool.false_eq_true, if_false]

/-- On the lines of well-formed records the loop of `findModuleBase` computes the mapper of
the specification. -/
theorem findModuleBaseLines_records (p : List Char) :
    ∀ records : List MapRecord, (∀ r ∈ records, r.WellFormed = true) →
      findModuleBaseLines p (records.map MapRecord.line) = .ok (findLoadBaseSpec records p) := by
  intro records
  induction records with
  | nil => intro _; rfl
  | cons r records ih =>
    intro hwf
    have hr := hwf r (List.mem_cons_self _ _)
    have hrest := ih fun x hx => hwf x (List.mem_cons_of_mem _ hx)
    rw [List.map_cons, findModuleBaseLines_record p r hr, hrest]
    unfold findLoadBaseSpec
    by_cases hb : r.backs p = true
    · simp [List.find?_cons, hb]
    · simp [List.find?_cons, hb]

theorem isLine_record (r : MapRecord) (hwf : r.WellFormed = true) : IsLine r.line := by
  obtain ⟨h1, h2, _, _, _, h6, _, h8, _, h10⟩ := r.wf_unpack hwf
  obtain ⟨_, hall1⟩ := (isHexText_iff _).mp h1
  obtain ⟨_, hall2⟩ := (isHexText_iff _).mp h2
  refine ⟨r.startText ++ '-' :: r.stopText ++ r.fields ++ r.path, rfl, ?_, ?_⟩
  · intro hm
    simp only [List.mem_append, List.mem_cons] at hm
    rcases hm with ((h | h | h) | h) | h
    · exact (hexDigit_isSome_ne _ (hall1 _ h)).2.2.2.2.2.1 rfl
    · revert h; decide
    · exact (hexDigit_isSome_ne _ (hall2 _ h)).2.2.2.2.2.1 rfl
    · exact h6 h
    · exact h8 h
  · have : r.line.length =
        (r.startText ++ '-' :: r.stopText ++ r.fields ++ r.path).length + 1 := by
      simp [MapRecord.line]
      omega
    omega

/-- On the mapping file of well-formed records `findModuleBase` computes the mapper of the
specification. -/
theorem findModuleBase_records (records : List MapRecord)
    (hwf : ∀ r ∈ records, r.WellFormed = true) (p : List Char) :
    findModuleBase (some (mapsText records)) p = .ok (findLoadBaseSpec records p) := by
  unfold findModuleBase mapsText
  simp only []
  rw [fgetsAll_lines, findModuleBaseLines_records p records hwf]
  intro l hl
  obtain ⟨r, hr, rfl⟩ := List.mem_map.mp hl
  exact isLine_record r (hwf r hr)

theorem stoull16_lt (s : List Char) (v : Nat) (h : stoull16 s = .ok v) : v < U64 := by
  unfold stoull16 at h
  simp only [] at h
  split_ifs at h with h1 h2 h3
  · injection h with h
    rw [← h]
    exact Nat.mod_lt _ (by decide)
  · injection h with h
    rw [← h]
    omega

theorem resolveSymbolOffset_lt (pipe : Option (List Char)) : resolveSymbolOffset pipe < U64 := by
  have h0 : 0 < U64 := by decide
  unfold resolveSymbolOffset
  cases pipe with
  | none => exact h0
  | some out =>
    simp only []
    split_ifs
    · exact h0
    · exact h0
    · cases hs : stoull16 (firstToken (match fgets 512 out with
          | some (buf, _) => buf
          | none => [])) with
      | error e => exact h0
      | ok v => exact stoull16_lt _ _ hs

theorem loadBase_records (records : List MapRecord)
    (hwf : ∀ r ∈ records, r.WellFormed = true) (env : Env) (pid : Int) (exePath : String)
    (hmaps : env.maps = some (mapsText records))
    (hretry : env.mapsRetry = some (mapsText records)) :
    (loadBase pid exePath env).2 =
      .ok (loadBaseSpec records exePath.toList (env.exeLink.map String.toList)) := by
  unfold loadBase loadBaseSpec
  rw [hmaps, hretry, findModuleBase_records records hwf]
  simp only []
  by_cases h0 : findLoadBaseSpec records exePath.toList = 0
  · simp only [h0, if_true, ne_eq, not_true_eq_false, if_false]
    cases hl : env.exeLink with
    | none => rfl
    | some real =>
      simp only [Option.map_some']
      exact findModuleBase_records records hwf _
  · simp only [h0, if_false, ne_eq, not_false_eq_true, if_true]

/-- The run of `main` up to the arming of the watchpoint. -/
theorem main_reaches_arming (env : Env) (st : WaitStatus) (base : Nat)
    (hargc : 5 ≤ env.argv.length)
    (hvar : (parseArgs env.argv.tail ⟨"", "", []⟩).varName ≠ "")
    (hexe : (parseArgs env.argv.tail ⟨"", "", []⟩).exePath ≠ "")
    (hsym : resolveSymbolOffset env.nmPipe ≠ 0)
    (hfork : env.forkRet ≠ -1) (hparent : env.forkRet ≠ 0)
    (hwait : env.firstWait = .status st) (hstop : WIFEXITED st = false)
    (hbase : (loadBase env.forkRet (parseArgs env.argv.tail ⟨"", "", []⟩).exePath env).2 =
      .ok base) :
    main env =
      Run.after
        ([.popen (nmCommand (parseArgs env.argv.tail ⟨"", "", []⟩).exePath
            (parseArgs env.argv.tail ⟨"", "", []⟩).varName),
          .cerr ("Symbol offset: 0x" ++ hexString (resolveSymbolOffset env.nmPipe) ++ "\n"),
          .fork,
          .waitpid env.forkRet] ++
          (loadBase env.forkRet (parseArgs env.argv.tail ⟨"", "", []⟩).exePath env).1 ++
          [.cerr ("Resolved runtime address: 0x" ++
            hexString (runtimeAddress base (resolveSymbolOffset env.nmPipe)) ++ "\n")])
        (armAndTrace (parseArgs env.argv.tail ⟨"", "", []⟩).varName env.forkRet
          (runtimeAddress base (resolveSymbolOffset env.nmPipe)) env) := by
  unfold main
  have h1 : ¬ env.argv.length < 5 := by omega
  simp only [h1, if_false, hvar, hexe, or_self, hsym, hfork, hparent]
  unfold parentBranch
  simp only [hwait, hstop, Bool.false_eq_true, if_false, hbase]
  simp only [Run.after_after]
  rfl

/-- C5, amended. Address resolution: on the mapping file of any list of well-formed records
(in particular, of lines that fit the 1024-byte buffer) and for every path `p`,
`findModuleBase` returns the start address (the hexadecimal number before `-`) of the
first record whose backing path contains `p` as a substring, and 0 when there is none.
`main` takes as base the result for the given binary path or, when that is 0, the result
for the resolved executable path, and arms the watchpoint at base plus static offset (in
64-bit arithmetic), at the static offset alone when no base is found.  In particular, when
no record matches the given path and the first record matching the resolved path has a
nonzero start address, the retry yields that start address and the runtime address differs
from the static offset. -/
theorem load_base_resolution (records : List MapRecord)
    (hwf : ∀ r ∈ records, r.WellFormed = true) :
    (∀ p : List Char,
        findModuleBase (some (mapsText records)) p = .ok (findLoadBaseSpec records p))
      ∧ (∀ (env : Env) (pid : Int) (exePath : String),
          env.maps = some (mapsText records) → env.mapsRetry = some (mapsText records) →
          (loadBase pid exePath env).2 =
            .ok (loadBaseSpec records exePath.toList (env.exeLink.map String.toList)))
      ∧ (∀ (env : Env) (st : WaitStatus),
          5 ≤ env.argv.length →
          (parseArgs env.argv.tail ⟨"", "", []⟩).varName ≠ "" →
          (parseArgs env.argv.tail ⟨"", "", []⟩).exePath ≠ "" →
          resolveSymbolOffset env.nmPipe ≠ 0 →
          env.forkRet ≠ -1 → env.forkRet ≠ 0 →
          env.firstWait = .status st → WIFEXITED st = false →
          env.maps = some (mapsText records) → env.mapsRetry = some (mapsText records) →
          main env =
            Run.after
              ([.popen (nmCommand (parseArgs env.argv.tail ⟨"", "", []⟩).exePath
                  (parseArgs env.argv.tail ⟨"", "", []⟩).varName),
                .cerr ("Symbol offset: 0x" ++ hexString (resolveSymbolOffset env.nmPipe) ++ "\n"),
                .fork,
                .waitpid env.forkRet] ++
                (loadBase env.forkRet (parseArgs env.argv.tail ⟨"", "", []⟩).exePath env).1 ++
                [.cerr ("Resolved runtime address: 0x" ++
                  hexString (runtimeAddress
                    (loadBaseSpec records (parseArgs env.argv.tail ⟨"", "", []⟩).exePath.toList
                      (env.exeLink.map String.toList))
                    (resolveSymbolOffset env.nmPipe)) ++ "\n")])
              (armAndTrace (parseArgs env.argv.tail ⟨"", "", []⟩).varName env.forkRet
                (runtimeAddress
                  (loadBaseSpec records (parseArgs env.argv.tail ⟨"", "", []⟩).exePath.toList
                    (env.exeLink.map String.toList))
                  (resolveSymbolOffset env.nmPipe)) env))
      ∧ (∀ base off : Nat,
          runtimeAddress base off = if base = 0 then off else (base + off) % U64)
      ∧ (∀ base off : Nat, base ≠ 0 → base + off < U64 → runtimeAddress base off = base + off)
      ∧ (∀ off : Nat, runtimeAddress 0 off = off)
      ∧ (∀ pipe : Option (List Char), resolveSymbolOffset pipe < U64)
      ∧ (∀ (rel real : List Char) (r : MapRecord) (off : Nat),
          (∀ x ∈ records, x.backs rel = false) →
          records.find? (MapRecord.backs real) = some r →
          r.start ≠ 0 → off < U64 →
          findLoadBaseSpec records rel = 0
            ∧ loadBaseSpec records rel (some real) = r.start
            ∧ runtimeAddress (loadBaseSpec records rel (some real)) off ≠ off) := by
  refine ⟨findModuleBase_records records hwf, ?_, ?_, fun _ _ => rfl, ?_, fun _ => rfl,
    resolveSymbolOffset_lt, ?_⟩
  · intro env pid exePath hmaps hretry
    exact loadBase_records records hwf env pid exePath hmaps hretry
  · intro env st hargc hvar hexe hsym hfork hparent hwait hstop hmaps hretry
    exact main_reaches_arming env st _ hargc hvar hexe hsym hfork hparent hwait hstop
      (loadBase_records records hwf env _ _ hmaps hretry)
  · intro base off hb hlt
    unfold runtimeAddress
    simp only [hb, if_false]
    exact Nat.mod_eq_of_lt hlt
  · intro rel real r off hnone hfirst hstart hoff
    have hrel : findLoadBaseSpec records rel = 0 := by
      unfold findLoadBaseSpec
      have : records.find? (MapRecord.backs rel) = none := by
        rw [List.find?_eq_none]
        intro x hx
        simp [hnone x hx]
      rw [this]
    have hreal : findLoadBaseSpec records real = r.start := by
      unfold findLoadBaseSpec
      rw [hfirst]
    have hspec : loadBaseSpec records rel (some real) = r.start := by
      unfold loadBaseSpec
      simp only [hrel, ne_eq, not_true_eq_false, if_false, hreal]
    refine ⟨hrel, hspec, ?_⟩
    rw [hspec]
    unfold runtimeAddress
    simp only [hstart, if_false]
    have hr : r.start < U64 :=
      (r.wf_unpack (hwf r (List.mem_of_find?_eq_some hfirst))).2.2.1
    unfold U64 at hr hoff ⊢
    omega

/-- C5 amended, at the records of a sample target started as `./sample_target`: the given path
matches no record, the resolved path matches the first one. -/
theorem load_base_resolution_witness :
    (∀ r ∈ sampleRecords, r.WellFormed = true)
      ∧ findModuleBase (some (mapsText sampleRecords)) "./sample_target".toList = .ok 0
      ∧ findModuleBase (some (mapsText sampleRecords)) "/home/u/sample_target".toList =
          .ok 0x55d0c0a00000 :=
  ⟨by decide,
    (load_base_resolution sampleRecords (by decide)).1 "./sample_target".toList,
    (load_base_resolution sampleRecords (by decide)).1 "/home/u/sample_target".toList⟩

set_option maxRecDepth 1000000 in
/-- C5, as stated, fails on a line longer than the buffer: `fgets` hands the line over in
two pieces, the path is found in the second piece, which has no address range, and
`findModuleBase` returns 0 although the backing path of the record contains `bin/foo` and
its start address is `0x400000`. -/
theorem long_line_is_not_matched :
    (fgetsAll 1024 (mapsText [longRecord])).length = 2
      ∧ findModuleBase (some (mapsText [longRecord])) "bin/foo".toList = .ok 0
      ∧ findLoadBaseSpec [longRecord] "bin/foo".toList = 0x400000
      ∧ findModuleBase (some (mapsText [longRecord])) "bin/foo".toList ≠
          .ok (findLoadBaseSpec [longRecord] "bin/foo".toList) := by
  decide!

end Gwatch
